import Mathlib

/-!
Verification of the equation-generation core of the Claude-LaTeX MCP repository.

The repository contains two nearly-duplicate implementations of the equation
tool:

* a compact one in `src/extensions/equation/equation-generator.ts`
  (pattern matcher over 3 patterns, result formatter, validator without
  environment pairing), embedded below in namespace `EquationGenerator`;
* an "advanced" one appended to `src/extensions/equation/math-symbols-library.ts`
  (pattern matcher over 10 patterns plus derivative/integration special
  cases, result formatter with an `equation*` fallback, validator with
  reverse-order environment pairing), embedded in namespace
  `AdvancedGenerator`.

The symbol library itself (command registry, `isValidCommand`,
`getSuggestions` with its Levenshtein distance) is embedded in namespace
`MathSymbolsLibrary`.

Strings are modelled as `List Char` (`Str`); JavaScript's `toLowerCase`,
`includes`, `trim`, `split` and the concrete regular expressions used by the
source are modelled by explicit executable functions.  Braces inside string
literals are written with the escapes `\x7b` and `\x7d`.
-/

/-- Strings of the modelled program, as lists of characters. -/
abbrev Str := List Char

/-- Shorthand turning a Lean string literal into the `Str` it denotes. -/
def str (s : String) : Str := s.data

/-- Model of JavaScript `String.prototype.toLowerCase` (ASCII range; every
string constant appearing in the source tables is ASCII). -/
def lowerStr (s : Str) : Str := s.map Char.toLower

/-- Model of JavaScript `String.prototype.includes`: does `pat` occur as a
contiguous substring of `s`?  (The empty pattern is always contained.) -/
def listContains (s pat : Str) : Bool :=
  pat.isPrefixOf s ||
    match s with
    | [] => false
    | _ :: t => listContains t pat

/-- Decimal rendering of a natural number, as used by JavaScript template
literals interpolating a non-negative integer. -/
def natStr (n : Nat) : Str := (Nat.repr n).data

/-- Decimal rendering of an integer (JavaScript template literal). -/
def intStr (n : Int) : Str := (Int.repr n).data

/-- Number of occurrences of the character `c` in `s`
(JavaScript `(s.match(/c/g) || []).length`). -/
def countChar (c : Char) (s : Str) : Nat := (s.filter (fun x => x = c)).length

theorem lowerStr_append (a b : Str) : lowerStr (a ++ b) = lowerStr a ++ lowerStr b :=
  List.map_append _ a b

theorem listContains_iff {s pat : Str} : listContains s pat = true ↔ pat <:+: s := by
  induction s with
  | nil =>
    rw [listContains]
    simp [List.isPrefixOf_iff_prefix]
  | cons c t ih =>
    rw [listContains]
    simp only [Bool.or_eq_true, List.isPrefixOf_iff_prefix, ih, List.infix_cons_iff]

theorem listContains_of_contained {s pat : Str} (h : pat <:+: s) : listContains s pat = true :=
  listContains_iff.mpr h

theorem not_infix_of_listContains_eq_false {s pat : Str} (h : listContains s pat = false) :
    ¬ pat <:+: s := by
  intro hinf
  rw [listContains_of_contained hinf] at h
  exact Bool.true_eq_false.mp h

/-- JavaScript whitespace for `String.prototype.trim` (the characters that can
actually occur in this code base are ASCII). -/
def isJsWhitespace (c : Char) : Bool :=
  c = ' ' || c = '\t' || c = '\n' || c = '\r' || c = '\x0b' || c = '\x0c' ||
    c = '\u00A0' || c = '\uFEFF' || c = '\u2028' || c = '\u2029'

/-- Model of JavaScript `String.prototype.trim`. -/
def trimStr (s : Str) : Str :=
  ((s.dropWhile isJsWhitespace).reverse.dropWhile isJsWhitespace).reverse


namespace MathSymbolsLibrary

/-- The registry of valid command names, in the insertion order of the
source's `Set` literal (the literal contains no duplicate, so iteration
order is literal order). -/
def VALID_MATH_COMMANDS : List Str := [
  str "alpha", str "beta", str "gamma", str "delta", str "epsilon",
  str "varepsilon", str "zeta", str "eta", str "theta", str "vartheta",
  str "iota", str "kappa", str "lambda", str "mu", str "nu",
  str "xi", str "pi", str "varpi", str "rho", str "varrho",
  str "sigma", str "varsigma", str "tau", str "upsilon", str "phi",
  str "varphi", str "chi", str "psi", str "omega", str "Gamma",
  str "Delta", str "Theta", str "Lambda", str "Xi", str "Pi",
  str "Sigma", str "Upsilon", str "Phi", str "Psi", str "Omega",
  str "leq", str "geq", str "equiv", str "neq", str "sim",
  str "approx", str "cong", str "propto", str "prec", str "succ",
  str "preceq", str "succeq", str "ll", str "gg", str "subset",
  str "supset", str "subseteq", str "supseteq", str "in", str "ni",
  str "vdash", str "dashv", str "pm", str "mp", str "times",
  str "div", str "cdot", str "ast", str "star", str "cap",
  str "cup", str "vee", str "wedge", str "oplus", str "otimes",
  str "circ", str "bullet", str "diamond", str "Box", str "triangleleft",
  str "triangleright", str "dagger", str "ddagger", str "sum", str "prod",
  str "int", str "oint", str "bigcap", str "bigcup", str "bigvee",
  str "bigwedge", str "bigoplus", str "bigotimes", str "leftarrow", str "Leftarrow",
  str "rightarrow", str "Rightarrow", str "leftrightarrow", str "Leftrightarrow", str "mapsto",
  str "hookleftarrow", str "hookrightarrow", str "uparrow", str "Uparrow", str "downarrow",
  str "Downarrow", str "updownarrow", str "Updownarrow", str "longleftarrow", str "Longleftarrow",
  str "longrightarrow", str "Longrightarrow", str "longleftrightarrow", str "Longleftrightarrow", str "langle",
  str "rangle", str "lfloor", str "rfloor", str "lceil", str "rceil",
  str "lbrace", str "rbrace", str "mathbf", str "mathit", str "mathsf",
  str "mathrm", str "mathcal", str "mathbb", str "mathfrak", str "mathscr",
  str "infty", str "nabla", str "partial", str "emptyset", str "exists",
  str "forall", str "neg", str "triangle", str "angle", str "hbar",
  str "imath", str "jmath", str "ell", str "wp", str "Re",
  str "Im", str "aleph", str "beth", str "gimel", str "bot",
  str "top", str "arccos", str "arcsin", str "arctan", str "arg",
  str "cos", str "cosh", str "cot", str "coth", str "csc",
  str "deg", str "det", str "dim", str "exp", str "gcd",
  str "hom", str "inf", str "ker", str "lg", str "lim",
  str "liminf", str "limsup", str "ln", str "log", str "max",
  str "min", str "Pr", str "sec", str "sin", str "sinh",
  str "sup", str "tan", str "tanh", str "hat", str "check",
  str "breve", str "acute", str "grave", str "tilde", str "bar",
  str "vec", str "dot", str "ddot", str "frac", str "sqrt",
  str "overline", str "underline", str "overbrace", str "underbrace", str "widehat",
  str "widetilde", str "overleftarrow", str "overrightarrow", str "matrix", str "pmatrix",
  str "bmatrix", str "Bmatrix", str "vmatrix", str "Vmatrix", str "array",
  str "begin", str "end", str "left", str "right", str "big",
  str "Big", str "bigg", str "Bigg", str "quad", str "qquad",
  str "hspace", str "vspace", str "thickspace", str "medspace", str "thinspace",
  str "operatorname", str "limits", str "equation", str "equation*", str "align",
  str "align*", str "gather", str "gather*", str "multline", str "multline*",
  str "split", str "cases", str "aligned", str "gathered", str "text",
  str "textbf", str "textit", str "textrm", str "textsf", str "texttt",
  str "textsc", str "newcommand", str "renewcommand", str "section", str "subsection",
  str "subsubsection", str "mbox", str "hfill", str "vfill", str "unit",
  str "meter", str "gram", str "second", str "ampere", str "kelvin",
  str "mole", str "candela", str "LaTeX", str "TeX"]
/-- The branch of `isValidCommand` for arguments without a backslash:
`cmd.split('{')[0].trim()`, then the `newcommand`/`renewcommand` escape
hatch, then registry membership. -/
def isValidCommandBase (cmd : Str) : Bool :=
  let base := trimStr ((cmd.splitOn '\x7b').headD [])
  base = str "newcommand" || base = str "renewcommand" ||
    VALID_MATH_COMMANDS.contains base

/-- Model of `isValidCommand`.  The source recurses on the pieces of
`cmd.split('\\')`; those pieces never contain a backslash, so the recursive
call always lands in the backslash-free branch, embedded here as
`isValidCommandBase`. -/
def isValidCommand (cmd : Str) : Bool :=
  if cmd.contains '\\' then
    (cmd.splitOn '\\').all (fun p => p.isEmpty || isValidCommandBase p)
  else isValidCommandBase cmd

/-- One row-extension step of the Levenshtein dynamic program of
`getSuggestions.dist`: given the previous row (starting at the diagonal
entry), the characters of `a` still to process, and the entry to the left,
produce the remainder of the current row.  Mirrors the inner `for` loop
filling `dp[i][j]` for `j = 1 .. a.length`. -/
def levRow (bc : Char) : Str → List Nat → Nat → List Nat
  | ac :: rest, pdiag :: prest, left =>
      let cur := if bc = ac then pdiag else 1 + min pdiag (min left (prest.headD 0))
      cur :: levRow bc rest prest cur
  | _, _, _ => []

/-- The final row `dp[b.length]` of the dynamic program (the outer `for`
loop over `i = 1 .. b.length`, starting from row `dp[0] = [0..a.length]`). -/
def lastRow (a b : Str) : List Nat :=
  (b.foldl (fun (st : Nat × List Nat) bc =>
      (st.1 + 1, (st.1 + 1) :: levRow bc a st.2 (st.1 + 1)))
    ((0 : Nat), List.range (a.length + 1))).2

/-- The edit distance `dist(a, b)` of `getSuggestions`: early return `0` on
`a === b`, otherwise `dp[b.length][a.length]`. -/
def dist (a b : Str) : Nat :=
  if a = b then 0 else (lastRow a b).getLastD 0

/-- The comparator of `getSuggestions`' sort: ascending by distance
(`(a, b) => a.d - b.d`). -/
def keyLe (p q : Str × Nat) : Prop := p.2 ≤ q.2

instance : DecidableRel keyLe := fun p q => inferInstanceAs (Decidable (p.2 ≤ q.2))

instance : IsTotal (Str × Nat) keyLe := ⟨fun p q => Nat.le_total p.2 q.2⟩

instance : IsTrans (Str × Nat) keyLe := ⟨fun _ _ _ => Nat.le_trans⟩

/-- Model of `getSuggestions`: map every registry entry to its distance from
`bad`, sort ascending by distance (JavaScript `Array.prototype.sort` is
required to be stable, which `List.insertionSort` is), take the first 5 and
keep the names. -/
def getSuggestions (bad : Str) : List Str :=
  ((((VALID_MATH_COMMANDS.map (fun cmd => (cmd, dist bad cmd))).insertionSort
        keyLe).take 5).map (fun p => p.1))

end MathSymbolsLibrary

/-- Kind of a validation issue, identified by the site in `validateEquation`
that pushes the corresponding message (the source returns bare strings). -/
inductive IssueKind where
  | UnbalancedBraces
  | UnbalancedDelimiters
  | MismatchedEnvironment
  | UnknownCommand
deriving DecidableEq, Repr

/-- A validation issue: its kind together with the exact message string the
source pushes onto the error array. -/
structure Issue where
  kind : IssueKind
  detail : Str
deriving DecidableEq, Repr

/-- The literal text preceding an environment name in `\begin{name}`. -/
def beginMarker : Str := str "\\begin\x7b"

/-- The literal text preceding an environment name in `\end{name}`. -/
def endMarker : Str := str "\\end\x7b"

/-- Fuel-indexed scanner for the global regex `pre + ([^}]+) + '}'`
(with `pre` one of `\begin{`, `\end{`): at each position, if the literal
marker matches and is followed by a non-empty run of non-`}` characters and
a closing `}`, record the captured name and resume after the match,
otherwise advance one character.  The fuel only bounds the recursion; a fuel
of `s.length` never runs out because every step consumes at least one
character. -/
def scanTagAux (pre : Str) : Nat → Str → List Str
  | 0, _ => []
  | _, [] => []
  | fuel + 1, c :: t =>
      if pre.isPrefixOf (c :: t) then
        let rest := (c :: t).drop pre.length
        let name := rest.takeWhile (fun x => x ≠ '\x7d')
        let after := rest.dropWhile (fun x => x ≠ '\x7d')
        if name.isEmpty then scanTagAux pre fuel t
        else
          match after with
          | [] => scanTagAux pre fuel t
          | _ :: a => name :: scanTagAux pre fuel a
      else scanTagAux pre fuel t

/-- All captured environment names of `s.match(/pre([^}]+)\}/g)`, in order. -/
def scanTag (pre s : Str) : List Str := scanTagAux pre s.length s

/-- ASCII letter test, the character class `[a-zA-Z]`. -/
def isAsciiAlphaChar (c : Char) : Bool :=
  ('a' ≤ c && c ≤ 'z') || ('A' ≤ c && c ≤ 'Z')

/-- Fuel-indexed scanner for the global regex `\\[a-zA-Z]+`: at a backslash
followed by at least one letter, record the maximal letter run (without the
backslash, as in `cmd.substring(1)`) and resume after it. -/
def scanCommandsAux : Nat → Str → List Str
  | 0, _ => []
  | _, [] => []
  | fuel + 1, c :: t =>
      if c = '\\' then
        let name := t.takeWhile isAsciiAlphaChar
        if name.isEmpty then scanCommandsAux fuel t
        else name :: scanCommandsAux fuel (t.dropWhile isAsciiAlphaChar)
      else scanCommandsAux fuel t

/-- All control-sequence names of `s.match(/\\[a-zA-Z]+/g)`, in order,
stripped of their leading backslash. -/
def scanCommands (s : Str) : List Str := scanCommandsAux s.length s

/-- Result record produced by pattern matching / generation
(`EquationGenerationResult`); the optional fields model the optional
properties `components?` and `explanation?`. -/
structure EquationGenerationResult where
  latex : Str
  preview : Str
  components : Option (List Str)
  explanation : Option Str
deriving DecidableEq, Repr

/-- The `result` payload of `ExecuteToolResponseSchema` as built by
`formatEquationResult`. -/
structure ToolResult where
  latex : Str
  preview : Str
  components : Option (List Str)
  explanation : Option Str
deriving DecidableEq, Repr

/-- The value returned by `formatEquationResult`. -/
structure ExecuteToolResponse where
  result : ToolResult
deriving DecidableEq, Repr

namespace EquationGenerator

/-- One fast-path entry of the compact implementation. -/
structure Pattern where
  keys : List Str
  latex : Str
  explanation : Str
deriving DecidableEq, Repr

/-- The static pattern table of `equation-generator.ts`. -/
def patterns : List Pattern := [
  { keys := [str "quadratic formula"],
    latex := str "x = \\frac\x7b-b \\pm \\sqrt\x7bb^2 - 4ac\x7d\x7d\x7b2a\x7d",
    explanation := str "Solution to ax²+bx+c=0." },
  { keys := [str "pythagorean theorem"],
    latex := str "a^2 + b^2 = c^2",
    explanation := str "Right‑triangle side relation." },
  { keys := [str "euler identity", str "euler\x27s identity"],
    latex := str "e^\x7bi\\pi\x7d + 1 = 0",
    explanation := str "Links e, i, π, 1, 0." }]

/-- The record a matched pattern is packaged into. -/
def canonicalResult (p : Pattern) : EquationGenerationResult :=
  { latex := p.latex
    preview := str "Preview:\n" ++ p.latex
    components := none
    explanation := some p.explanation }

/-- Model of the compact `matchKnownEquationPattern`: lowercase the
description, return the first table entry one of whose keys is contained,
`null` otherwise. -/
def matchKnownEquationPattern (desc : Str) : Option EquationGenerationResult :=
  let lower := lowerStr desc
  (patterns.find? (fun p => p.keys.any (fun k => listContains lower k))).map
    canonicalResult

/-- Model of the compact `formatEquationResult`.  The `switch` is on the
`format` string; the `default` branch returns the latex unwrapped.  (The
TypeScript parameter type is an enum of five strings, but the runtime
`switch` accepts any string, which is what the spec's unknown-value
question is about.) -/
def formatEquationResult (src : EquationGenerationResult) (fmt : Str)
    (numbered : Bool) : ExecuteToolResponse :=
  let wrap : Str :=
    if fmt = str "inline" then str "$" ++ src.latex ++ str "$"
    else if fmt = str "display" then
      if numbered then str "\\begin\x7bequation\x7d\n  " ++ src.latex ++ str "\n\\end\x7bequation\x7d"
      else str "\\[\n  " ++ src.latex ++ str "\n\\]"
    else if fmt = str "align" then
      if numbered then str "\\begin\x7balign\x7d\n  " ++ src.latex ++ str "\n\\end\x7balign\x7d"
      else str "\\begin\x7balign*\x7d\n  " ++ src.latex ++ str "\n\\end\x7balign*\x7d"
    else if fmt = str "gather" then
      if numbered then str "\\begin\x7bgather\x7d\n  " ++ src.latex ++ str "\n\\end\x7bgather\x7d"
      else str "\\begin\x7bgather*\x7d\n  " ++ src.latex ++ str "\n\\end\x7bgather*\x7d"
    else if fmt = str "multline" then
      if numbered then str "\\begin\x7bmultline\x7d\n  " ++ src.latex ++ str "\n\\end\x7bmultline\x7d"
      else str "\\begin\x7bmultline*\x7d\n  " ++ src.latex ++ str "\n\\end\x7bmultline*\x7d"
    else src.latex
  { result :=
    { latex := wrap
      preview := src.preview
      components := src.components
      explanation := src.explanation } }

/-- The brace-count check of the compact `validateEquation`. -/
def braceIssues (code : Str) : List Issue :=
  if countChar '\x7b' code ≠ countChar '\x7d' code then
    [⟨IssueKind.UnbalancedBraces,
      str "Unbalanced braces (" ++ natStr (countChar '\x7b' code) ++ str "/" ++
        natStr (countChar '\x7d' code) ++ str ")."⟩]
  else []

/-- The dollar-parity check of the compact `validateEquation`. -/
def dollarIssues (code : Str) : List Issue :=
  if countChar '$' code % 2 ≠ 0 then
    [⟨IssueKind.UnbalancedDelimiters, str "Unbalanced $ delimiters."⟩]
  else []

/-- The `\begin`/`\end` count check of the compact `validateEquation`
(this implementation performs no pairing of the tags). -/
def envIssues (code : Str) : List Issue :=
  if (scanTag beginMarker code).length ≠ (scanTag endMarker code).length then
    [⟨IssueKind.MismatchedEnvironment,
      str "Mismatched \\begin/\\end (" ++ natStr (scanTag beginMarker code).length ++
        str "/" ++ natStr (scanTag endMarker code).length ++ str ")."⟩]
  else []

/-- The unknown-command check of the compact `validateEquation`. -/
def cmdIssues (code : Str) : List Issue :=
  (scanCommands code).filterMap (fun name =>
    if MathSymbolsLibrary.isValidCommand name then none
    else some ⟨IssueKind.UnknownCommand, str "Unknown command \\" ++ name⟩)

/-- Model of the compact `validateEquation` of `equation-generator.ts`:
brace counts, dollar parity, `\begin`/`\end` counts (no pairing), unknown
commands, the issues accumulated in this order. -/
def validateEquation (code : Str) : List Issue :=
  braceIssues code ++ dollarIssues code ++ envIssues code ++ cmdIssues code

end EquationGenerator

namespace AdvancedGenerator

/-- One fast-path entry of the advanced implementation. -/
structure KnownPattern where
  patterns : List Str
  latex : Str
  components : List Str
  explanation : Str
deriving DecidableEq, Repr

/-- The static pattern table of the advanced implementation. -/
def equationPatterns : List KnownPattern := [
  { patterns := [str "quadratic formula", str "quadratic equation solution"]
    latex := str "x = \\frac\x7b-b \\pm \\sqrt\x7bb^2 - 4ac\x7d\x7d\x7b2a\x7d"
    components := [str "variable x", str "coefficients a, b, c", str "square root", str "plus-minus operator"]
    explanation := str "The quadratic formula provides solutions to any quadratic equation ax² + bx + c = 0." },
  { patterns := [str "pythagorean theorem", str "right triangle relation"]
    latex := str "a^2 + b^2 = c^2"
    components := [str "sides a and b", str "hypotenuse c", str "squared terms"]
    explanation := str "The Pythagorean theorem relates the sides of a right triangle." },
  { patterns := [str "euler identity", str "euler\x27s formula", str "euler\x27s identity"]
    latex := str "e^\x7bi\\pi\x7d + 1 = 0"
    components := [str "euler\x27s number e", str "imaginary unit i", str "pi constant", str "exponential function"]
    explanation := str "Euler\x27s identity connects five fundamental mathematical constants in a single formula." },
  { patterns := [str "normal distribution", str "gaussian distribution", str "probability density function", str "pdf normal"]
    latex := str "f(x | \\mu, \\sigma^2) = \\frac\x7b1\x7d\x7b\\sqrt\x7b2\\pi\\sigma^2\x7d\x7d e^\x7b-\\frac\x7b(x-\\mu)^2\x7d\x7b2\\sigma^2\x7d\x7d"
    components := [str "function notation", str "mean μ", str "variance σ²", str "exponential function", str "fraction"]
    explanation := str "The normal distribution probability density function describes the distribution of continuous data." },
  { patterns := [str "maxwell equation", str "gauss\x27s law", str "electric field divergence"]
    latex := str "\\nabla \\cdot \\mathbf\x7bE\x7d = \\frac\x7b\\rho\x7d\x7b\\epsilon_0\x7d"
    components := [str "nabla operator", str "dot product", str "electric field vector", str "charge density", str "vacuum permittivity"]
    explanation := str "Gauss\x27s law for electricity (one of Maxwell\x27s equations) relates electric field to charge density." },
  { patterns := [str "navier-stokes", str "fluid dynamics equation"]
    latex := str "\\rho \\left( \\frac\x7b\\partial \\vec\x7bv\x7d\x7d\x7b\\partial t\x7d + \\vec\x7bv\x7d \\cdot \\nabla \\vec\x7bv\x7d \\right) = -\\nabla p + \\nabla \\cdot \\mathbf\x7bT\x7d + \\vec\x7bf\x7d"
    components := [str "density ρ", str "velocity vector", str "pressure gradient", str "stress tensor", str "body forces"]
    explanation := str "The Navier-Stokes equations describe the motion of fluid substances." },
  { patterns := [str "schrodinger equation", str "quantum mechanics", str "wave function equation"]
    latex := str "i\\hbar\\frac\x7b\\partial\x7d\x7b\\partial t\x7d\\Psi(\\mathbf\x7br\x7d,t) = \\hat\x7bH\x7d\\Psi(\\mathbf\x7br\x7d,t)"
    components := [str "imaginary unit i", str "reduced Planck constant", str "wave function", str "Hamiltonian operator"]
    explanation := str "The Schrödinger equation describes how the quantum state of a physical system changes over time." },
  { patterns := [str "einstein field equations", str "general relativity", str "spacetime curvature"]
    latex := str "R_\x7b\\mu\\nu\x7d - \\frac\x7b1\x7d\x7b2\x7dRg_\x7b\\mu\\nu\x7d + \\Lambda g_\x7b\\mu\\nu\x7d = \\frac\x7b8\\pi G\x7d\x7bc^4\x7dT_\x7b\\mu\\nu\x7d"
    components := [str "Ricci curvature tensor", str "metric tensor", str "cosmological constant", str "stress-energy tensor"]
    explanation := str "Einstein\x27s field equations describe the fundamental interaction of gravitation in general relativity." },
  { patterns := [str "taylor series", str "taylor expansion"]
    latex := str "f(x) = f(a) + \\frac\x7bf\x27(a)\x7d\x7b1!\x7d(x-a) + \\frac\x7bf\x27\x27(a)\x7d\x7b2!\x7d(x-a)^2 + \\frac\x7bf\x27\x27\x27(a)\x7d\x7b3!\x7d(x-a)^3 + \\cdots"
    components := [str "function values", str "derivatives", str "factorial notation", str "power series"]
    explanation := str "A Taylor series expands a function into an infinite sum of terms derived from the function\x27s derivatives at a single point." },
  { patterns := [str "fourier transform", str "fourier analysis"]
    latex := str "\\mathcal\x7bF\x7d[f(t)] = F(\\omega) = \\int_\x7b-\\infty\x7d^\x7b\\infty\x7d f(t) e^\x7b-i\\omega t\x7d dt"
    components := [str "integral", str "function in time domain", str "exponential term", str "angular frequency"]
    explanation := str "The Fourier transform converts a function of time to a function of frequency." }]

/-- The record a matched pattern is packaged into (advanced implementation:
`Preview: ` prefix, components present). -/
def canonicalResult (p : KnownPattern) : EquationGenerationResult :=
  { latex := p.latex
    preview := str "Preview: " ++ p.latex
    components := some p.components
    explanation := some p.explanation }

/-- JavaScript `.` in a regex matches everything except line terminators. -/
def isLineTerm (c : Char) : Bool :=
  c = '\n' || c = '\r' || c = '\u2028' || c = '\u2029'

/-- The literal alternative terminating the lazy group of the special-case
regexes. -/
def wrtMarker : Str := str "with respect to"

/-- The lazy group `.+?` followed by `(?:with respect to|$)`: take the
shortest non-empty run of non-line-terminator characters after which the
input either continues with `with respect to` or ends.  `none` when no
continuation matches (a line terminator blocks `.`). -/
def lazyDotPlus : Str → Option Str
  | [] => none
  | c :: t =>
      if isLineTerm c then none
      else if wrtMarker.isPrefixOf t || t.isEmpty then some [c]
      else (lazyDotPlus t).map (fun tail => c :: tail)

/-- Try the special-case regex at the current position: one of the two
literal alternatives (each already concatenated with the following
`' f(x) = '` text, the two alternatives being mutually exclusive at any
single position), then the lazy group.  The returned capture is group 1,
`f(x) = ` plus the lazy part. -/
def matchSpecialAt (m1 m2 s : Str) : Option Str :=
  if m1.isPrefixOf s then
    (lazyDotPlus (s.drop m1.length)).map (fun tail => str "f(x) = " ++ tail)
  else if m2.isPrefixOf s then
    (lazyDotPlus (s.drop m2.length)).map (fun tail => str "f(x) = " ++ tail)
  else none

/-- `regex.exec`: the leftmost position at which the special-case regex
matches, returning capture group 1. -/
def execSpecial (m1 m2 : Str) : Str → Option Str
  | [] => none
  | c :: t =>
      match matchSpecialAt m1 m2 (c :: t) with
      | some cap => some cap
      | none => execSpecial m1 m2 t

/-- `exec` of `/(?:derivative of|differentiate) (f\(x\) = .+?)(?:with respect to|$)/`. -/
def execDeriv (s : Str) : Option Str :=
  execSpecial (str "derivative of f(x) = ") (str "differentiate f(x) = ") s

/-- `exec` of `/(?:integral of|integrate) (f\(x\) = .+?)(?:with respect to|$)/`. -/
def execInt (s : Str) : Option Str :=
  execSpecial (str "integral of f(x) = ") (str "integrate f(x) = ") s

/-- `exec` of `/f\(x\) = (.+)/` as used by the two handlers: leftmost
occurrence of the literal `f(x) = ` followed by at least one
non-line-terminator character; the greedy group captures the maximal such
run. -/
def execFx : Str → Option Str
  | [] => none
  | c :: t =>
      if (str "f(x) = ").isPrefixOf (c :: t) then
        let cap := ((c :: t).drop (str "f(x) = ").length).takeWhile (fun ch => !isLineTerm ch)
        if cap.isEmpty then execFx t else some cap
      else execFx t

/-- The anchored power regex `/^x\^(\d+)$/`: returns the digit string. -/
def powMatch : Str → Option Str
  | 'x' :: '^' :: ds => if !ds.isEmpty && ds.all Char.isDigit then some ds else none
  | _ => none

/-- `parseInt` on a non-empty digit string. -/
def digitsToNat (ds : Str) : Nat :=
  ds.foldl (fun acc c => acc * 10 + (c.toNat - '0'.toNat)) 0

/-- Model of `handleDerivative`. -/
def handleDerivative (functionText : Str) : EquationGenerationResult :=
  match execFx functionText with
  | none =>
      { latex := str "\\frac\x7bd\x7d\x7bdx\x7d[?]"
        preview := str "Could not parse function for differentiation"
        components := none
        explanation := none }
  | some cap =>
      let expression := trimStr cap
      let pair : Str × Str :=
        match powMatch expression with
        | some ds =>
            let power := digitsToNat ds
            (if power = 1 then str "1"
             else if power = 2 then str "2x"
             else natStr power ++ str "x^\x7b" ++ intStr ((power : Int) - 1) ++ str "\x7d",
             str "Using the power rule: d/dx(x^n) = n·x^(n-1)")
        | none =>
            if expression = str "sin(x)" then (str "cos(x)", str "The derivative of sin(x) is cos(x)")
            else if expression = str "cos(x)" then (str "-sin(x)", str "The derivative of cos(x) is -sin(x)")
            else if expression = str "e^x" then (str "e^x", str "The derivative of e^x is e^x")
            else if expression = str "ln(x)" then (str "\\frac\x7b1\x7d\x7bx\x7d", str "The derivative of ln(x) is 1/x")
            else (str "\\frac\x7bd\x7d\x7bdx\x7d[" ++ expression ++ str "]", str "Symbolic representation of the derivative")
      { latex := pair.1
        preview := str "Preview: " ++ pair.1
        components := none
        explanation := some pair.2 }

/-- Model of `handleIntegration`. -/
def handleIntegration (functionText : Str) : EquationGenerationResult :=
  match execFx functionText with
  | none =>
      { latex := str "\\int\x7b?\x7d\\,dx"
        preview := str "Could not parse function for integration"
        components := none
        explanation := none }
  | some cap =>
      let expression := trimStr cap
      let pair : Str × Str :=
        match powMatch expression with
        | some ds =>
            let newPower := digitsToNat ds + 1
            (str "\\frac\x7bx^\x7b" ++ natStr newPower ++ str "\x7d\x7d\x7b" ++ natStr newPower ++ str "\x7d + C",
             str "Using the power rule: ∫x^n dx = x^(n+1)/(n+1) + C")
        | none =>
            if expression = str "sin(x)" then (str "-cos(x) + C", str "The integral of sin(x) is -cos(x) + C")
            else if expression = str "cos(x)" then (str "sin(x) + C", str "The integral of cos(x) is sin(x) + C")
            else if expression = str "e^x" then (str "e^x + C", str "The integral of e^x is e^x + C")
            else if expression = str "1/x" then (str "ln|x| + C", str "The integral of 1/x is ln|x| + C")
            else (str "\\int\x7b" ++ expression ++ str "\x7d\\,dx", str "Symbolic representation of the integral")
      { latex := pair.1
        preview := str "Preview: " ++ pair.1
        components := none
        explanation := some pair.2 }

/-- Model of the advanced `matchKnownEquationPattern`: the table scan first;
then, if the lowercased description mentions differentiation, the derivative
special case; then likewise integration; else `null`.  (The non-null capture
of a successful `exec` is never the empty string, so the source's `m && m[1]`
test is a test for a successful match.) -/
def matchKnownEquationPattern (description : Str) : Option EquationGenerationResult :=
  let lowerDesc := lowerStr description
  match equationPatterns.find? (fun p => p.patterns.any (fun t => listContains lowerDesc t)) with
  | some p => some (canonicalResult p)
  | none =>
      match (if listContains lowerDesc (str "derivative") || listContains lowerDesc (str "differentiate")
             then execDeriv lowerDesc else none) with
      | some cap => some (handleDerivative cap)
      | none =>
          match (if listContains lowerDesc (str "integral") || listContains lowerDesc (str "integrate")
                 then execInt lowerDesc else none) with
          | some cap => some (handleIntegration cap)
          | none => none

/-- Model of the advanced `formatEquationResult`; its `default` branch wraps
in `equation*`. -/
def formatEquationResult (result : EquationGenerationResult) (format : Str)
    (numbered : Bool) : ExecuteToolResponse :=
  let formattedLatex : Str :=
    if format = str "inline" then str "$" ++ result.latex ++ str "$"
    else if format = str "display" then
      if numbered then str "\\begin\x7bequation\x7d\n  " ++ result.latex ++ str "\n\\end\x7bequation\x7d"
      else str "\\begin\x7bequation*\x7d\n  " ++ result.latex ++ str "\n\\end\x7bequation*\x7d"
    else if format = str "align" then
      if numbered then str "\\begin\x7balign\x7d\n  " ++ result.latex ++ str "\n\\end\x7balign\x7d"
      else str "\\begin\x7balign*\x7d\n  " ++ result.latex ++ str "\n\\end\x7balign*\x7d"
    else if format = str "gather" then
      if numbered then str "\\begin\x7bgather\x7d\n  " ++ result.latex ++ str "\n\\end\x7bgather\x7d"
      else str "\\begin\x7bgather*\x7d\n  " ++ result.latex ++ str "\n\\end\x7bgather*\x7d"
    else if format = str "multline" then
      if numbered then str "\\begin\x7bmultline\x7d\n  " ++ result.latex ++ str "\n\\end\x7bmultline\x7d"
      else str "\\begin\x7bmultline*\x7d\n  " ++ result.latex ++ str "\n\\end\x7bmultline*\x7d"
    else str "\\begin\x7bequation*\x7d\n  " ++ result.latex ++ str "\n\\end\x7bequation*\x7d"
  { result :=
    { latex := formattedLatex
      preview := result.preview
      components := result.components
      explanation := result.explanation } }

/-- The message template of a reverse-order pairing mismatch. -/
def mismatchDetail (b e : Str) : Str :=
  str "Mismatched environment: \\begin\x7b" ++ b ++ str "\x7d and \\end\x7b" ++ e ++ str "\x7d"

/-- The brace-count check of the advanced `validateEquation`. -/
def braceIssues (latex : Str) : List Issue :=
  if countChar '\x7b' latex ≠ countChar '\x7d' latex then
    [⟨IssueKind.UnbalancedBraces,
      str "Unbalanced braces: " ++ natStr (countChar '\x7b' latex) ++ str " opening and " ++
        natStr (countChar '\x7d' latex) ++ str " closing braces"⟩]
  else []

/-- The dollar-parity check of the advanced `validateEquation`. -/
def dollarIssues (latex : Str) : List Issue :=
  if countChar '$' latex % 2 ≠ 0 then
    [⟨IssueKind.UnbalancedDelimiters, str "Unbalanced dollar signs for inline math"⟩]
  else []

/-- The environment check of the advanced `validateEquation`: a single
count-mismatch issue when the numbers of `\begin` and `\end` tags differ,
otherwise the reverse-order pairing loop, flagging the pair `(i, n-1-i)`
whenever the two names differ. -/
def envIssues (latex : Str) : List Issue :=
  if (scanTag beginMarker latex).length ≠ (scanTag endMarker latex).length then
    [⟨IssueKind.MismatchedEnvironment,
      str "Mismatched environment tags: " ++ natStr (scanTag beginMarker latex).length ++
        str " \\begin and " ++ natStr (scanTag endMarker latex).length ++ str " \\end tags"⟩]
  else
    (List.range (scanTag beginMarker latex).length).filterMap (fun i =>
      if (scanTag beginMarker latex).getD i [] ≠
          (scanTag endMarker latex).getD ((scanTag beginMarker latex).length - 1 - i) [] then
        some ⟨IssueKind.MismatchedEnvironment,
          mismatchDetail ((scanTag beginMarker latex).getD i [])
            ((scanTag endMarker latex).getD ((scanTag beginMarker latex).length - 1 - i) [])⟩
      else none)

/-- The unknown-command check of the advanced `validateEquation`. -/
def cmdIssues (latex : Str) : List Issue :=
  (scanCommands latex).filterMap (fun name =>
    if MathSymbolsLibrary.isValidCommand name then none
    else some ⟨IssueKind.UnknownCommand, str "Potentially undefined control sequence: \\" ++ name⟩)

/-- Model of the advanced `validateEquation`: brace counts, dollar parity,
environment counts with reverse-order pairing when the counts agree, unknown
commands, the issues accumulated in this order. -/
def validateEquation (latex : Str) : List Issue :=
  braceIssues latex ++ dollarIssues latex ++ envIssues latex ++ cmdIssues latex

end AdvancedGenerator

namespace MathSymbolsLibrary

/-- The mathematical recurrence computed by the dynamic program of `dist`:
`dpEntry a b i j` is the table entry `dp[i][j]` (out-of-range character
accesses never occur at the indices the program uses; `getD` supplies a
dummy default). -/
def dpEntry (a b : Str) : Nat → Nat → Nat
  | 0, j => j
  | i + 1, 0 => i + 1
  | i + 1, j + 1 =>
      if b.getD i ' ' = a.getD j ' ' then dpEntry a b i j
      else 1 + min (dpEntry a b i j) (min (dpEntry a b (i + 1) j) (dpEntry a b i (j + 1)))
termination_by i j => i + j

/-- Row `i` of the dynamic program, written as a direct recursion on the row
index (used to relate `lastRow` to `dpEntry`). -/
def rowAt (a b : Str) : Nat → List Nat
  | 0 => List.range (a.length + 1)
  | i + 1 => (i + 1) :: levRow (b.getD i ' ') a (rowAt a b i) (i + 1)

end MathSymbolsLibrary

/-! ### Generic list lemmas used by the claim proofs -/

theorem find?_eq_get_of_first {α : Type} (l : List α) (p : α → Bool) :
    ∀ (i : Nat) (hi : i < l.length), p (l.get ⟨i, hi⟩) = true →
      (∀ k (hk : k < i), p (l.get ⟨k, Nat.lt_trans hk hi⟩) = false) →
      l.find? p = some (l.get ⟨i, hi⟩) := by
  induction l with
  | nil => intro i hi; exact absurd hi (Nat.not_lt_zero i)
  | cons a t ih =>
    intro i hi hp hk
    cases i with
    | zero => exact List.find?_cons_of_pos _ hp
    | succ i' =>
      have ha : p a = false := hk 0 (Nat.succ_pos i')
      rw [List.find?_cons_of_neg _ (by simp [ha])]
      exact ih i' (Nat.lt_of_succ_lt_succ hi) hp
        (fun k hk' => hk (k + 1) (Nat.succ_lt_succ hk'))

theorem pair_get_sublist {α : Type} (l : List α) :
    ∀ (i j : Nat) (hij : i < j) (hj : j < l.length),
      List.Sublist [l.get ⟨i, Nat.lt_trans hij hj⟩, l.get ⟨j, hj⟩] l := by
  induction l with
  | nil => intro i j hij hj; exact absurd hj (Nat.not_lt_zero j)
  | cons a t ih =>
    intro i j hij hj
    cases i with
    | zero =>
      cases j with
      | zero => exact absurd hij (Nat.lt_irrefl 0)
      | succ j' =>
        exact List.Sublist.cons₂ a (List.singleton_sublist.mpr (t.get_mem _ _))
    | succ i' =>
      cases j with
      | zero => exact absurd hij (by omega)
      | succ j' =>
        exact List.Sublist.cons a
          (ih i' j' (Nat.lt_of_succ_lt_succ hij) (Nat.lt_of_succ_lt_succ hj))

theorem eq_of_pair_sublists {α : Type} :
    ∀ {l : List α}, l.Nodup → ∀ {x y : α},
      List.Sublist [x, y] l → List.Sublist [y, x] l → x = y := by
  intro l
  induction l with
  | nil => intro _ x y h _; exact absurd h (by simp)
  | cons a t ih =>
    intro hnd x y h1 h2
    cases h1 with
    | cons _ h1' =>
      cases h2 with
      | cons _ h2' => exact ih hnd.of_cons h1' h2'
      | cons₂ _ h2' =>
        exact absurd (h1'.subset (by simp)) (List.nodup_cons.mp hnd).1
    | cons₂ _ h1' =>
      cases h2 with
      | cons _ h2' =>
        exact absurd (h2'.subset (by simp)) (List.nodup_cons.mp hnd).1
      | cons₂ _ h2' => rfl

theorem length_filterMap_if {α β : Type} (q : α → Prop) [DecidablePred q]
    (g : α → β) (l : List α) :
    (l.filterMap (fun i => if q i then some (g i) else none)).length
      = l.countP (fun i => decide (q i)) := by
  induction l with
  | nil => rfl
  | cons a t ih =>
    by_cases h : q a
    · simp [List.filterMap_cons, h, List.countP_cons, ih]
    · simp [List.filterMap_cons, h, List.countP_cons, ih]

/-! ### The dynamic program of `dist` computes `dpEntry`, and is symmetric -/

namespace MathSymbolsLibrary

theorem getD_drop_cons {a : Str} {j0 : Nat} {ac : Char} {rest : Str}
    (h : a.drop j0 = ac :: rest) : a.getD j0 ' ' = ac := by
  rw [List.getD_eq_getElem?_getD, ← List.head?_drop, h]
  rfl

theorem drop_succ_of_drop_cons {a : Str} {j0 : Nat} {ac : Char} {rest : Str}
    (h : a.drop j0 = ac :: rest) : a.drop (j0 + 1) = rest := by
  have := List.drop_drop 1 j0 a
  rw [h] at this
  simpa using this.symm

theorem levRow_spec (a b : Str) (i : Nat) :
    ∀ (asuf : Str) (j0 : Nat), asuf = a.drop j0 →
      ∀ (prev : List Nat), prev.length = a.length + 1 - j0 →
      (∀ k, k < prev.length → prev.getD k 0 = dpEntry a b i (j0 + k)) →
      ∀ (left : Nat), left = dpEntry a b (i + 1) j0 →
      (levRow (b.getD i ' ') asuf prev left).length = asuf.length ∧
      ∀ k, k < asuf.length →
        (levRow (b.getD i ' ') asuf prev left).getD k 0 = dpEntry a b (i + 1) (j0 + k + 1) := by
  intro asuf
  induction asuf with
  | nil =>
    intro j0 _ prev _ _ left _
    refine ⟨rfl, ?_⟩
    intro k hk
    exact absurd hk (Nat.not_lt_zero k)
  | cons ac rest ih =>
    intro j0 hdrop prev hlen hprev left hleft
    have hj0 : j0 < a.length := by
      have := congrArg List.length hdrop
      simp [List.length_drop] at this
      omega
    have hac : a.getD j0 ' ' = ac := getD_drop_cons hdrop.symm
    have hrest : rest = a.drop (j0 + 1) := (drop_succ_of_drop_cons hdrop.symm).symm
    have hplen : 1 < prev.length := by omega
    obtain ⟨pdiag, prest, rfl⟩ : ∃ x xs, prev = x :: xs := by
      cases prev with
      | nil => exact absurd hplen (by simp)
      | cons x xs => exact ⟨x, xs, rfl⟩
    have hpdiag : pdiag = dpEntry a b i j0 := by
      have := hprev 0 (by omega)
      simpa using this
    have hup : prest.headD 0 = dpEntry a b i (j0 + 1) := by
      have := hprev 1 (by omega)
      cases prest with
      | nil => simp at hlen; omega
      | cons u us => simpa using this
    have hcur : (if b.getD i ' ' = ac then pdiag
        else 1 + min pdiag (min left (prest.headD 0))) = dpEntry a b (i + 1) (j0 + 1) := by
      rw [hpdiag, hleft, hup, ← hac]
      by_cases hc : b.getD i ' ' = a.getD j0 ' '
      · rw [if_pos hc]
        conv_rhs => rw [dpEntry]
        rw [if_pos hc]
      · rw [if_neg hc]
        conv_rhs => rw [dpEntry]
        rw [if_neg hc]
    have hplen2 : prest.length = a.length + 1 - (j0 + 1) := by
      simp at hlen
      omega
    have hprev2 : ∀ k, k < prest.length → prest.getD k 0 = dpEntry a b i (j0 + 1 + k) := by
      intro k hk
      have := hprev (k + 1) (by simp; omega)
      rw [List.getD_cons_succ] at this
      rw [this]
      congr 1
      omega
    have ihres := ih (j0 + 1) hrest prest hplen2 hprev2
      (if b.getD i ' ' = ac then pdiag else 1 + min pdiag (min left (prest.headD 0))) hcur
    constructor
    · rw [levRow]
      simpa using ihres.1
    · intro k hk
      rw [levRow]
      cases k with
      | zero => simpa using hcur
      | succ k' =>
        have h2 := ihres.2 k' (by simpa using hk)
        have heq : j0 + 1 + k' + 1 = j0 + (k' + 1) + 1 := by omega
        rw [heq] at h2
        simpa using h2

end MathSymbolsLibrary

namespace MathSymbolsLibrary

theorem rowAt_spec (a b : Str) :
    ∀ i, (rowAt a b i).length = a.length + 1 ∧
      ∀ k, k < a.length + 1 → (rowAt a b i).getD k 0 = dpEntry a b i k := by
  intro i
  induction i with
  | zero =>
    constructor
    · simp [rowAt]
    · intro k hk
      rw [rowAt, List.getD_eq_getElem?_getD, List.getElem?_range (by simpa using hk)]
      cases k with
      | zero => simp [dpEntry]
      | succ k' => simp [dpEntry]
  | succ i ih =>
    have hlev := levRow_spec a b i a 0 (by simp) (rowAt a b i) (by simpa using ih.1)
      (fun k hk => by
        have := ih.2 k (by rw [ih.1] at hk; exact hk)
        simpa using this)
      (i + 1) (by simp [dpEntry])
    constructor
    · rw [rowAt]
      simp only [List.length_cons, hlev.1]
    · intro k hk
      rw [rowAt]
      cases k with
      | zero => simp [dpEntry]
      | succ k' =>
        have := hlev.2 k' (by omega)
        simpa using this

theorem lastRow_foldl_aux (a b : Str) :
    ∀ (bs : Str) (i : Nat), bs = b.drop i →
      bs.foldl (fun (st : Nat × List Nat) bc =>
          (st.1 + 1, (st.1 + 1) :: levRow bc a st.2 (st.1 + 1)))
        (i, rowAt a b i) = (i + bs.length, rowAt a b (i + bs.length)) := by
  intro bs
  induction bs with
  | nil => intro i _; simp
  | cons bc rest ih =>
    intro i hdrop
    have hbc : b.getD i ' ' = bc := getD_drop_cons hdrop.symm
    have hrest : rest = b.drop (i + 1) := (drop_succ_of_drop_cons hdrop.symm).symm
    rw [List.foldl_cons]
    have hstep : ((i : Nat) + 1, (i + 1) :: levRow bc a (rowAt a b i) (i + 1))
        = (i + 1, rowAt a b (i + 1)) := by
      rw [rowAt, hbc]
    rw [hstep, ih (i + 1) hrest]
    simp only [List.length_cons]
    rw [show i + 1 + rest.length = i + (rest.length + 1) by omega]

theorem lastRow_eq_rowAt (a b : Str) : lastRow a b = rowAt a b b.length := by
  have h := lastRow_foldl_aux a b b 0 (by simp)
  rw [lastRow]
  have h0 : (List.range (a.length + 1)) = rowAt a b 0 := by rw [rowAt]
  rw [h0, h]
  simp

theorem dpEntry_symm (a b : Str) :
    ∀ (n i j : Nat), i + j ≤ n → dpEntry a b i j = dpEntry b a j i := by
  intro n
  induction n with
  | zero =>
    intro i j h
    obtain ⟨rfl, rfl⟩ : i = 0 ∧ j = 0 := by omega
    simp [dpEntry]
  | succ n ih =>
    intro i j h
    cases i with
    | zero => cases j <;> simp [dpEntry]
    | succ i' =>
      cases j with
      | zero => simp [dpEntry]
      | succ j' =>
        have e1 : dpEntry a b i' j' = dpEntry b a j' i' := ih i' j' (by omega)
        have e2 : dpEntry a b (i' + 1) j' = dpEntry b a j' (i' + 1) := ih (i' + 1) j' (by omega)
        have e3 : dpEntry a b i' (j' + 1) = dpEntry b a (j' + 1) i' := ih i' (j' + 1) (by omega)
        by_cases hc : b.getD i' ' ' = a.getD j' ' '
        · rw [dpEntry, if_pos hc, e1]
          conv_rhs => rw [dpEntry]
          rw [if_pos hc.symm]
        · rw [dpEntry, if_neg hc, e1, e2, e3]
          conv_rhs => rw [dpEntry]
          rw [if_neg (fun hcc => hc hcc.symm)]
          rw [Nat.min_comm (dpEntry b a (j' + 1) i') (dpEntry b a j' (i' + 1))]

theorem getLastD_eq_getD_length_sub_one (l : List Nat) :
    l.getLastD 0 = l.getD (l.length - 1) 0 := by
  rw [List.getLastD_eq_getLast?, List.getLast?_eq_getElem?, List.getD_eq_getElem?_getD]

theorem dist_eq_dpEntry (a b : Str) (h : a ≠ b) :
    dist a b = dpEntry a b b.length a.length := by
  rw [dist, if_neg h, lastRow_eq_rowAt, getLastD_eq_getD_length_sub_one]
  have hs := rowAt_spec a b b.length
  rw [hs.1]
  simpa using hs.2 a.length (by omega)

/-- C5 helper: the table value is symmetric in the two strings. -/
theorem dist_symm_aux (a b : Str) : dist a b = dist b a := by
  by_cases h : a = b
  · subst h; rfl
  · have h' : b ≠ a := fun e => h e.symm
    rw [dist_eq_dpEntry a b h, dist_eq_dpEntry b a h']
    exact dpEntry_symm a b (b.length + a.length) b.length a.length (by omega)

end MathSymbolsLibrary


/-! ### Characterizing the issues of each kind emitted by the validators -/

theorem kind_of_mem_filterMap {α : Type} (f : α → Option Issue) (k : IssueKind)
    (hf : ∀ x i, f x = some i → i.kind = k) (l : List α) :
    ∀ i ∈ l.filterMap f, i.kind = k := by
  intro i hi
  rcases List.mem_filterMap.mp hi with ⟨x, _, hx⟩
  exact hf x i hx

theorem filter_eq_self_of_kind {l : List Issue} {k : IssueKind} (h : ∀ i ∈ l, i.kind = k) :
    l.filter (fun i => i.kind == k) = l :=
  List.filter_eq_self.mpr (fun a ha => by simp [h a ha])

theorem filter_eq_nil_of_kind {l : List Issue} {k k' : IssueKind}
    (h : ∀ i ∈ l, i.kind = k) (hne : k ≠ k') :
    l.filter (fun i => i.kind == k') = [] :=
  List.filter_eq_nil_iff.mpr (fun a ha => by simp [h a ha]; exact hne)

theorem exists_kind_iff_of_filter {l : List Issue} {k : IssueKind} {c : Prop}
    [Decidable c] {d : Str}
    (h : l.filter (fun i => i.kind == k) = if c then [⟨k, d⟩] else []) :
    (∃ i ∈ l, i.kind = k) ↔ c := by
  constructor
  · rintro ⟨i, hi, hk⟩
    have hmem : i ∈ l.filter (fun i => i.kind == k) := List.mem_filter.mpr ⟨hi, by simp [hk]⟩
    rw [h] at hmem
    by_contra hc
    rw [if_neg hc] at hmem
    simp at hmem
  · intro hc
    have hmem : (⟨k, d⟩ : Issue) ∈ l.filter (fun i => i.kind == k) := by
      rw [h, if_pos hc]
      simp
    exact ⟨⟨k, d⟩, List.mem_of_mem_filter hmem, rfl⟩

theorem mem_kind_of_filter_ite {l : List Issue} {k : IssueKind} {c : Prop}
    [Decidable c] {d : Str}
    (h : l.filter (fun i => i.kind == k) = if c then [⟨k, d⟩] else []) :
    ∀ i ∈ l, i.kind = k → i = ⟨k, d⟩ := by
  intro i hi hk
  have hmem : i ∈ l.filter (fun i => i.kind == k) := List.mem_filter.mpr ⟨hi, by simp [hk]⟩
  rw [h] at hmem
  split at hmem
  · simpa using hmem
  · simp at hmem

theorem kind_of_mem_ite_singleton {c : Prop} [Decidable c] {k : IssueKind} {d : Str} :
    ∀ i ∈ (if c then [(⟨k, d⟩ : Issue)] else []), i.kind = k := by
  split
  · intro i hi
    simp at hi
    rw [hi]
  · intro i hi
    cases hi

theorem filter_ite_singleton_self {c : Prop} [Decidable c] {k : IssueKind} {d : Str} :
    (if c then [(⟨k, d⟩ : Issue)] else []).filter (fun i => i.kind == k)
      = if c then [⟨k, d⟩] else [] := by
  split <;> simp

namespace EquationGenerator

theorem braceIssues_kind (s : Str) :
    ∀ i ∈ braceIssues s, i.kind = IssueKind.UnbalancedBraces := by
  unfold braceIssues
  exact kind_of_mem_ite_singleton

theorem dollarIssues_kind (s : Str) :
    ∀ i ∈ dollarIssues s, i.kind = IssueKind.UnbalancedDelimiters := by
  unfold dollarIssues
  exact kind_of_mem_ite_singleton

theorem envIssues_kind (s : Str) :
    ∀ i ∈ envIssues s, i.kind = IssueKind.MismatchedEnvironment := by
  unfold envIssues
  exact kind_of_mem_ite_singleton

theorem cmdIssues_kind (s : Str) :
    ∀ i ∈ cmdIssues s, i.kind = IssueKind.UnknownCommand := by
  unfold cmdIssues
  exact kind_of_mem_filterMap _ _
    (fun x i hx => by
      split at hx
      · cases hx
      · cases hx; rfl)
    _

theorem filter_braces (s : Str) :
    (validateEquation s).filter (fun i => i.kind == IssueKind.UnbalancedBraces)
      = if countChar '\x7b' s ≠ countChar '\x7d' s then
          [⟨IssueKind.UnbalancedBraces,
            str "Unbalanced braces (" ++ natStr (countChar '\x7b' s) ++ str "/" ++
              natStr (countChar '\x7d' s) ++ str ")."⟩]
        else [] := by
  unfold validateEquation
  simp only [List.filter_append]
  rw [filter_eq_nil_of_kind (dollarIssues_kind s) (by simp),
    filter_eq_nil_of_kind (envIssues_kind s) (by simp),
    filter_eq_nil_of_kind (cmdIssues_kind s) (by simp)]
  have h := @filter_ite_singleton_self (countChar '\x7b' s ≠ countChar '\x7d' s) _
    IssueKind.UnbalancedBraces
    (str "Unbalanced braces (" ++ natStr (countChar '\x7b' s) ++ str "/" ++
      natStr (countChar '\x7d' s) ++ str ").")
  simp only [braceIssues]
  simp only [List.append_nil]
  exact h

theorem filter_dollars (s : Str) :
    (validateEquation s).filter (fun i => i.kind == IssueKind.UnbalancedDelimiters)
      = if countChar '$' s % 2 ≠ 0 then
          [⟨IssueKind.UnbalancedDelimiters, str "Unbalanced $ delimiters."⟩]
        else [] := by
  unfold validateEquation
  simp only [List.filter_append]
  rw [filter_eq_nil_of_kind (braceIssues_kind s) (by simp),
    filter_eq_nil_of_kind (envIssues_kind s) (by simp),
    filter_eq_nil_of_kind (cmdIssues_kind s) (by simp)]
  have h := @filter_ite_singleton_self (countChar '$' s % 2 ≠ 0) _
    IssueKind.UnbalancedDelimiters (str "Unbalanced $ delimiters.")
  simp only [dollarIssues]
  simp only [List.append_nil, List.nil_append]
  exact h

end EquationGenerator

namespace AdvancedGenerator

theorem adv_braceIssues_kind (s : Str) :
    ∀ i ∈ braceIssues s, i.kind = IssueKind.UnbalancedBraces := by
  unfold braceIssues
  exact kind_of_mem_ite_singleton

theorem adv_dollarIssues_kind (s : Str) :
    ∀ i ∈ dollarIssues s, i.kind = IssueKind.UnbalancedDelimiters := by
  unfold dollarIssues
  exact kind_of_mem_ite_singleton

theorem adv_envIssues_kind (s : Str) :
    ∀ i ∈ envIssues s, i.kind = IssueKind.MismatchedEnvironment := by
  unfold envIssues
  split
  · intro i hi
    simp at hi
    rw [hi]
  · exact kind_of_mem_filterMap _ _
      (fun x i hx => by
        split at hx
        · cases hx; rfl
        · cases hx)
      _

theorem adv_cmdIssues_kind (s : Str) :
    ∀ i ∈ cmdIssues s, i.kind = IssueKind.UnknownCommand := by
  unfold cmdIssues
  exact kind_of_mem_filterMap _ _
    (fun x i hx => by
      split at hx
      · cases hx
      · cases hx; rfl)
    _

end AdvancedGenerator

namespace AdvancedGenerator

theorem adv_filter_braces (s : Str) :
    (validateEquation s).filter (fun i => i.kind == IssueKind.UnbalancedBraces)
      = if countChar '\x7b' s ≠ countChar '\x7d' s then
          [⟨IssueKind.UnbalancedBraces,
            str "Unbalanced braces: " ++ natStr (countChar '\x7b' s) ++ str " opening and " ++
              natStr (countChar '\x7d' s) ++ str " closing braces"⟩]
        else [] := by
  unfold validateEquation
  simp only [List.filter_append]
  rw [filter_eq_nil_of_kind (adv_dollarIssues_kind s) (by simp),
    filter_eq_nil_of_kind (adv_envIssues_kind s) (by simp),
    filter_eq_nil_of_kind (adv_cmdIssues_kind s) (by simp)]
  have h := @filter_ite_singleton_self (countChar '\x7b' s ≠ countChar '\x7d' s) _
    IssueKind.UnbalancedBraces
    (str "Unbalanced braces: " ++ natStr (countChar '\x7b' s) ++ str " opening and " ++
      natStr (countChar '\x7d' s) ++ str " closing braces")
  simp only [braceIssues]
  simp only [List.append_nil]
  exact h

theorem adv_filter_dollars (s : Str) :
    (validateEquation s).filter (fun i => i.kind == IssueKind.UnbalancedDelimiters)
      = if countChar '$' s % 2 ≠ 0 then
          [⟨IssueKind.UnbalancedDelimiters, str "Unbalanced dollar signs for inline math"⟩]
        else [] := by
  unfold validateEquation
  simp only [List.filter_append]
  rw [filter_eq_nil_of_kind (adv_braceIssues_kind s) (by simp),
    filter_eq_nil_of_kind (adv_envIssues_kind s) (by simp),
    filter_eq_nil_of_kind (adv_cmdIssues_kind s) (by simp)]
  have h := @filter_ite_singleton_self (countChar '$' s % 2 ≠ 0) _
    IssueKind.UnbalancedDelimiters (str "Unbalanced dollar signs for inline math")
  simp only [dollarIssues]
  simp only [List.append_nil, List.nil_append]
  exact h

theorem adv_filter_env_of_count_eq (s : Str)
    (h : (scanTag beginMarker s).length = (scanTag endMarker s).length) :
    (validateEquation s).filter (fun i => i.kind == IssueKind.MismatchedEnvironment)
      = (List.range (scanTag beginMarker s).length).filterMap (fun i =>
          if (scanTag beginMarker s).getD i [] ≠
              (scanTag endMarker s).getD ((scanTag beginMarker s).length - 1 - i) [] then
            some ⟨IssueKind.MismatchedEnvironment,
              mismatchDetail ((scanTag beginMarker s).getD i [])
                ((scanTag endMarker s).getD ((scanTag beginMarker s).length - 1 - i) [])⟩
          else none) := by
  unfold validateEquation
  simp only [List.filter_append]
  rw [filter_eq_nil_of_kind (adv_braceIssues_kind s) (by simp),
    filter_eq_nil_of_kind (adv_dollarIssues_kind s) (by simp),
    filter_eq_nil_of_kind (adv_cmdIssues_kind s) (by simp),
    filter_eq_self_of_kind (adv_envIssues_kind s)]
  simp only [envIssues, if_neg (show ¬ (scanTag beginMarker s).length ≠ (scanTag endMarker s).length from fun hc => hc h)]
  simp

end AdvancedGenerator

namespace EquationGenerator

theorem filter_env_of_count_eq (s : Str)
    (h : (scanTag beginMarker s).length = (scanTag endMarker s).length) :
    (validateEquation s).filter (fun i => i.kind == IssueKind.MismatchedEnvironment) = [] := by
  unfold validateEquation
  simp only [List.filter_append]
  rw [filter_eq_nil_of_kind (braceIssues_kind s) (by simp),
    filter_eq_nil_of_kind (dollarIssues_kind s) (by simp),
    filter_eq_nil_of_kind (cmdIssues_kind s) (by simp),
    filter_eq_self_of_kind (envIssues_kind s)]
  simp only [envIssues, if_neg (show ¬ (scanTag beginMarker s).length ≠ (scanTag endMarker s).length from fun hc => hc h)]
  simp

end EquationGenerator

/-! ### Claim theorems -/

/-- C5: the edit-distance function used by the suggestion engine is
symmetric, and the distance of every string to itself is zero (in
particular for every command name in the registry). -/
theorem c5_dist_symmetric_and_zero_on_diagonal :
    (∀ a b : Str, MathSymbolsLibrary.dist a b = MathSymbolsLibrary.dist b a)
    ∧ ∀ s : Str, MathSymbolsLibrary.dist s s = 0 :=
  ⟨MathSymbolsLibrary.dist_symm_aux, fun s => by simp [MathSymbolsLibrary.dist]⟩

/-- C6: for every result record, formatting with environment `inline` and
`numbered = true` returns the same response as with `numbered = false`,
namely the body wrapped in single-dollar delimiters — in both
implementations of the result formatter. -/
theorem c6_inline_ignores_numbered (r : EquationGenerationResult) :
    (EquationGenerator.formatEquationResult r (str "inline") true
        = EquationGenerator.formatEquationResult r (str "inline") false
      ∧ (EquationGenerator.formatEquationResult r (str "inline") true).result.latex
        = str "$" ++ r.latex ++ str "$")
    ∧ (AdvancedGenerator.formatEquationResult r (str "inline") true
        = AdvancedGenerator.formatEquationResult r (str "inline") false
      ∧ (AdvancedGenerator.formatEquationResult r (str "inline") true).result.latex
        = str "$" ++ r.latex ++ str "$") := by
  refine ⟨⟨?_, ?_⟩, ?_, ?_⟩ <;>
    simp [EquationGenerator.formatEquationResult, AdvancedGenerator.formatEquationResult]

/-- C10: for every input record and every format/numbered choice, both
result formatters change only the `latex` field: the `preview`,
`components` and `explanation` fields of the response are exactly those of
the input record. -/
theorem c10_formatter_preserves_other_fields (r : EquationGenerationResult)
    (fmt : Str) (numbered : Bool) :
    ((EquationGenerator.formatEquationResult r fmt numbered).result.preview = r.preview
      ∧ (EquationGenerator.formatEquationResult r fmt numbered).result.components = r.components
      ∧ (EquationGenerator.formatEquationResult r fmt numbered).result.explanation = r.explanation)
    ∧ ((AdvancedGenerator.formatEquationResult r fmt numbered).result.preview = r.preview
      ∧ (AdvancedGenerator.formatEquationResult r fmt numbered).result.components = r.components
      ∧ (AdvancedGenerator.formatEquationResult r fmt numbered).result.explanation = r.explanation) :=
  ⟨⟨rfl, rfl, rfl⟩, rfl, rfl, rfl⟩

/-- C7: each validator emits an `UnbalancedBraces` issue iff the number of
`{` characters differs from the number of `}` characters, and any such
issue's detail text contains both counts. -/
theorem c7_unbalanced_braces_iff (s : Str) :
    (((∃ i ∈ AdvancedGenerator.validateEquation s, i.kind = IssueKind.UnbalancedBraces) ↔
        countChar '\x7b' s ≠ countChar '\x7d' s)
      ∧ ∀ i ∈ AdvancedGenerator.validateEquation s, i.kind = IssueKind.UnbalancedBraces →
          natStr (countChar '\x7b' s) <:+: i.detail ∧ natStr (countChar '\x7d' s) <:+: i.detail)
    ∧ (((∃ i ∈ EquationGenerator.validateEquation s, i.kind = IssueKind.UnbalancedBraces) ↔
        countChar '\x7b' s ≠ countChar '\x7d' s)
      ∧ ∀ i ∈ EquationGenerator.validateEquation s, i.kind = IssueKind.UnbalancedBraces →
          natStr (countChar '\x7b' s) <:+: i.detail ∧ natStr (countChar '\x7d' s) <:+: i.detail) := by
  refine ⟨⟨exists_kind_iff_of_filter (AdvancedGenerator.adv_filter_braces s), ?_⟩,
          exists_kind_iff_of_filter (EquationGenerator.filter_braces s), ?_⟩
  · intro i hi hk
    have he := mem_kind_of_filter_ite (AdvancedGenerator.adv_filter_braces s) i hi hk
    rw [he]
    constructor
    · exact ⟨str "Unbalanced braces: ",
        str " opening and " ++ natStr (countChar '\x7d' s) ++ str " closing braces", by simp⟩
    · exact ⟨str "Unbalanced braces: " ++ natStr (countChar '\x7b' s) ++ str " opening and ",
        str " closing braces", by simp⟩
  · intro i hi hk
    have he := mem_kind_of_filter_ite (EquationGenerator.filter_braces s) i hi hk
    rw [he]
    constructor
    · exact ⟨str "Unbalanced braces (",
        str "/" ++ natStr (countChar '\x7d' s) ++ str ").", by simp⟩
    · exact ⟨str "Unbalanced braces (" ++ natStr (countChar '\x7b' s) ++ str "/",
        str ").", by simp⟩

/-- C7 witness: at the input `{` the hypotheses of `c7_unbalanced_braces_iff`
are dischargeable: the issue exists (count 1 versus 0) and its detail
contains both counts. -/
theorem c7_unbalanced_braces_iff_witness :
    (∃ i ∈ AdvancedGenerator.validateEquation (str "\x7b"), i.kind = IssueKind.UnbalancedBraces)
    ∧ (natStr 1 <:+:
        (⟨IssueKind.UnbalancedBraces,
          str "Unbalanced braces: 1 opening and 0 closing braces"⟩ : Issue).detail
      ∧ natStr 0 <:+:
        (⟨IssueKind.UnbalancedBraces,
          str "Unbalanced braces: 1 opening and 0 closing braces"⟩ : Issue).detail) := by
  constructor
  · exact (c7_unbalanced_braces_iff (str "\x7b")).1.1.mpr (by decide)
  · have h := (c7_unbalanced_braces_iff (str "\x7b")).1.2
      ⟨IssueKind.UnbalancedBraces, str "Unbalanced braces: 1 opening and 0 closing braces"⟩
      (by decide) rfl
    exact ⟨h.1, h.2⟩

/-- C8: each validator emits an `UnbalancedDelimiters` issue iff the number
of `$` characters is odd; `validate("$x$$")` returns exactly one
`UnbalancedDelimiters` issue (and nothing else) in both implementations. -/
theorem c8_unbalanced_delimiters_iff (s : Str) :
    ((∃ i ∈ AdvancedGenerator.validateEquation s, i.kind = IssueKind.UnbalancedDelimiters) ↔
        countChar '$' s % 2 = 1)
    ∧ ((∃ i ∈ EquationGenerator.validateEquation s, i.kind = IssueKind.UnbalancedDelimiters) ↔
        countChar '$' s % 2 = 1)
    ∧ AdvancedGenerator.validateEquation (str "$x$$")
        = [⟨IssueKind.UnbalancedDelimiters, str "Unbalanced dollar signs for inline math"⟩]
    ∧ EquationGenerator.validateEquation (str "$x$$")
        = [⟨IssueKind.UnbalancedDelimiters, str "Unbalanced $ delimiters."⟩] := by
  refine ⟨?_, ?_, by decide, by decide⟩
  · rw [exists_kind_iff_of_filter (AdvancedGenerator.adv_filter_dollars s)]
    omega
  · rw [exists_kind_iff_of_filter (EquationGenerator.filter_dollars s)]
    omega

/-- C8 witness: the odd-count direction of `c8_unbalanced_delimiters_iff`
instantiated at `$x$$` (three dollar signs). -/
theorem c8_unbalanced_delimiters_iff_witness :
    ∃ i ∈ AdvancedGenerator.validateEquation (str "$x$$"),
      i.kind = IssueKind.UnbalancedDelimiters :=
  (c8_unbalanced_delimiters_iff (str "$x$$")).1.mpr (by decide)

/-- C3 (amended): with an environment value outside
`inline`/`display`/`align`/`gather`/`multline`, the advanced formatter
returns the body wrapped in `\begin{equation*} ... \end{equation*}`, while
the compact formatter of `equation-generator.ts` returns the body
unchanged. -/
theorem c3_unknown_format_fallback (r : EquationGenerationResult) (fmt : Str)
    (numbered : Bool)
    (h1 : fmt ≠ str "inline") (h2 : fmt ≠ str "display") (h3 : fmt ≠ str "align")
    (h4 : fmt ≠ str "gather") (h5 : fmt ≠ str "multline") :
    (AdvancedGenerator.formatEquationResult r fmt numbered).result.latex
      = str "\\begin\x7bequation*\x7d\n  " ++ r.latex ++ str "\n\\end\x7bequation*\x7d"
    ∧ (EquationGenerator.formatEquationResult r fmt numbered).result.latex = r.latex := by
  constructor <;>
    simp [AdvancedGenerator.formatEquationResult, EquationGenerator.formatEquationResult,
      h1, h2, h3, h4, h5]

/-- C3 witness: `c3_unknown_format_fallback` applied at the environment
value `unknown`. -/
theorem c3_unknown_format_fallback_witness :
    (AdvancedGenerator.formatEquationResult ⟨str "x", str "p", none, none⟩
        (str "unknown") true).result.latex
      = str "\\begin\x7bequation*\x7d\n  " ++ str "x" ++ str "\n\\end\x7bequation*\x7d"
    ∧ (EquationGenerator.formatEquationResult ⟨str "x", str "p", none, none⟩
        (str "unknown") true).result.latex = str "x" :=
  c3_unknown_format_fallback ⟨str "x", str "p", none, none⟩ (str "unknown") true
    (by decide) (by decide) (by decide) (by decide) (by decide)

/-- C3 counterexample: the claim as stated fails on the compact
implementation — formatting `x` with the unknown environment value
`unknown` does not produce the starred `equation` wrapping (it returns the
body unchanged). -/
theorem c3_unknown_format_counterexample :
    (EquationGenerator.formatEquationResult ⟨str "x", str "p", none, none⟩
        (str "unknown") true).result.latex
      ≠ str "\\begin\x7bequation*\x7d\n  x\n\\end\x7bequation*\x7d" := by
  decide

/-- C2 (amended): for every input whose numbers of `\begin{...}` and
`\end{...}` tags agree (`n` of each), the advanced validator pairs the
`i`-th begin tag with the `(n-1-i)`-th end tag and its
`MismatchedEnvironment` issues are exactly one issue naming both tags per
pair whose names differ; the compact validator of `equation-generator.ts`
only compares the counts and emits no `MismatchedEnvironment` issue in this
case.  In particular, on `\begin{align}x\end{gather}` the advanced
validator returns exactly one `MismatchedEnvironment` issue naming `align`
and `gather`, while the compact one returns no issue. -/
theorem c2_reverse_order_pairing (s : Str)
    (h : (scanTag beginMarker s).length = (scanTag endMarker s).length) :
    ((AdvancedGenerator.validateEquation s).filter
        (fun i => i.kind == IssueKind.MismatchedEnvironment)
      = (List.range (scanTag beginMarker s).length).filterMap (fun i =>
          if (scanTag beginMarker s).getD i [] ≠
              (scanTag endMarker s).getD ((scanTag beginMarker s).length - 1 - i) [] then
            some ⟨IssueKind.MismatchedEnvironment,
              AdvancedGenerator.mismatchDetail ((scanTag beginMarker s).getD i [])
                ((scanTag endMarker s).getD ((scanTag beginMarker s).length - 1 - i) [])⟩
          else none))
    ∧ (((AdvancedGenerator.validateEquation s).filter
        (fun i => i.kind == IssueKind.MismatchedEnvironment)).length
      = (List.range (scanTag beginMarker s).length).countP (fun i =>
          decide ((scanTag beginMarker s).getD i [] ≠
            (scanTag endMarker s).getD ((scanTag beginMarker s).length - 1 - i) [])))
    ∧ (∀ i, i < (scanTag beginMarker s).length →
        (scanTag beginMarker s).getD i [] ≠
          (scanTag endMarker s).getD ((scanTag beginMarker s).length - 1 - i) [] →
        (⟨IssueKind.MismatchedEnvironment,
          AdvancedGenerator.mismatchDetail ((scanTag beginMarker s).getD i [])
            ((scanTag endMarker s).getD ((scanTag beginMarker s).length - 1 - i) [])⟩ : Issue)
          ∈ AdvancedGenerator.validateEquation s)
    ∧ (∀ b e : Str, b <:+: AdvancedGenerator.mismatchDetail b e
        ∧ e <:+: AdvancedGenerator.mismatchDetail b e)
    ∧ (EquationGenerator.validateEquation s).filter
        (fun i => i.kind == IssueKind.MismatchedEnvironment) = []
    ∧ AdvancedGenerator.validateEquation (str "\\begin\x7balign\x7dx\\end\x7bgather\x7d")
        = [⟨IssueKind.MismatchedEnvironment,
            AdvancedGenerator.mismatchDetail (str "align") (str "gather")⟩]
    ∧ EquationGenerator.validateEquation (str "\\begin\x7balign\x7dx\\end\x7bgather\x7d") = [] := by
  refine ⟨AdvancedGenerator.adv_filter_env_of_count_eq s h, ?_, ?_, ?_,
    EquationGenerator.filter_env_of_count_eq s h, by decide, by decide⟩
  · rw [AdvancedGenerator.adv_filter_env_of_count_eq s h]
    exact length_filterMap_if _ _ _
  · intro i hi hne
    have hmem : (⟨IssueKind.MismatchedEnvironment,
        AdvancedGenerator.mismatchDetail ((scanTag beginMarker s).getD i [])
          ((scanTag endMarker s).getD ((scanTag beginMarker s).length - 1 - i) [])⟩ : Issue)
        ∈ AdvancedGenerator.envIssues s := by
      unfold AdvancedGenerator.envIssues
      rw [if_neg (show ¬ (scanTag beginMarker s).length ≠ (scanTag endMarker s).length from
        fun hc => hc h)]
      exact List.mem_filterMap.mpr ⟨i, List.mem_range.mpr hi, by rw [if_pos hne]⟩
    unfold AdvancedGenerator.validateEquation
    exact List.mem_append.mpr (Or.inl (List.mem_append.mpr (Or.inr hmem)))
  · intro b e
    constructor
    · exact ⟨str "Mismatched environment: \\begin\x7b",
        str "\x7d and \\end\x7b" ++ e ++ str "\x7d",
        by simp [AdvancedGenerator.mismatchDetail]⟩
    · exact ⟨str "Mismatched environment: \\begin\x7b" ++ b ++ str "\x7d and \\end\x7b",
        str "\x7d", by simp [AdvancedGenerator.mismatchDetail]⟩

/-- C2 witness: `c2_reverse_order_pairing` at `\begin{align}x\end{gather}`
(equal counts, one differing pair at index 0). -/
theorem c2_reverse_order_pairing_witness :
    (⟨IssueKind.MismatchedEnvironment,
      AdvancedGenerator.mismatchDetail
        ((scanTag beginMarker (str "\\begin\x7balign\x7dx\\end\x7bgather\x7d")).getD 0 [])
        ((scanTag endMarker (str "\\begin\x7balign\x7dx\\end\x7bgather\x7d")).getD
          ((scanTag beginMarker (str "\\begin\x7balign\x7dx\\end\x7bgather\x7d")).length - 1 - 0)
          [])⟩ : Issue)
      ∈ AdvancedGenerator.validateEquation (str "\\begin\x7balign\x7dx\\end\x7bgather\x7d") :=
  (c2_reverse_order_pairing (str "\\begin\x7balign\x7dx\\end\x7bgather\x7d")
    (by decide)).2.2.1 0 (by decide) (by decide)

/-- C2 counterexample: the claim as stated fails on the compact validator —
on `\begin{align}x\end{gather}` it returns no issue at all rather than
exactly one `MismatchedEnvironment` issue (it never pairs tags, it only
compares the counts). -/
theorem c2_counterexample :
    EquationGenerator.validateEquation (str "\\begin\x7balign\x7dx\\end\x7bgather\x7d") = [] := by
  decide

/-- C1 (amended): for every pattern index `i`, every trigger phrase `k` of
that pattern and every casing `T` of it (`lowerStr T = k`), matching a
description `pre ++ T ++ suf` that contains no trigger of an
earlier-listed pattern returns the `i`-th pattern's canonical result — in
both implementations, so the pattern listed earliest in the table wins on
ambiguous input; and a description containing no trigger phrase of any
pattern makes the compact matcher return `null`.  (The advanced matcher may
still answer such a description through its derivative/integration special
cases; see the counterexample.) -/
theorem c1_pattern_table (pre T suf : Str) :
    (∀ (i : Nat) (hi : i < EquationGenerator.patterns.length) (k : Str),
        k ∈ (EquationGenerator.patterns.get ⟨i, hi⟩).keys →
        lowerStr T = k →
        (∀ j (hj : j < i), ∀ k' ∈ (EquationGenerator.patterns.get ⟨j, Nat.lt_trans hj hi⟩).keys,
          listContains (lowerStr (pre ++ T ++ suf)) k' = false) →
        EquationGenerator.matchKnownEquationPattern (pre ++ T ++ suf)
          = some (EquationGenerator.canonicalResult (EquationGenerator.patterns.get ⟨i, hi⟩)))
    ∧ (∀ (i : Nat) (hi : i < AdvancedGenerator.equationPatterns.length) (k : Str),
        k ∈ (AdvancedGenerator.equationPatterns.get ⟨i, hi⟩).patterns →
        lowerStr T = k →
        (∀ j (hj : j < i),
          ∀ k' ∈ (AdvancedGenerator.equationPatterns.get ⟨j, Nat.lt_trans hj hi⟩).patterns,
          listContains (lowerStr (pre ++ T ++ suf)) k' = false) →
        AdvancedGenerator.matchKnownEquationPattern (pre ++ T ++ suf)
          = some (AdvancedGenerator.canonicalResult
              (AdvancedGenerator.equationPatterns.get ⟨i, hi⟩)))
    ∧ (∀ desc : Str,
        (∀ p ∈ EquationGenerator.patterns, ∀ k ∈ p.keys,
          listContains (lowerStr desc) k = false) →
        EquationGenerator.matchKnownEquationPattern desc = none) := by
  have hinf : ∀ k : Str, lowerStr T = k → k <:+: lowerStr (pre ++ T ++ suf) := by
    intro k hT
    exact ⟨lowerStr pre, lowerStr suf, by
      rw [lowerStr_append (pre ++ T) suf, lowerStr_append pre T, hT]⟩
  refine ⟨?_, ?_, ?_⟩
  · intro i hi k hk hT hfirst
    have hfind := find?_eq_get_of_first EquationGenerator.patterns
      (fun p => p.keys.any (fun k => listContains (lowerStr (pre ++ T ++ suf)) k)) i hi
      (List.any_eq_true.mpr ⟨k, hk, listContains_of_contained (hinf k hT)⟩)
      (fun j hj => by
        rw [List.any_eq_false]
        intro x hx
        rw [hfirst j hj x hx]
        simp)
    simp only [EquationGenerator.matchKnownEquationPattern]
    rw [hfind]
    rfl
  · intro i hi k hk hT hfirst
    have hfind := find?_eq_get_of_first AdvancedGenerator.equationPatterns
      (fun p => p.patterns.any (fun t => listContains (lowerStr (pre ++ T ++ suf)) t)) i hi
      (List.any_eq_true.mpr ⟨k, hk, listContains_of_contained (hinf k hT)⟩)
      (fun j hj => by
        rw [List.any_eq_false]
        intro x hx
        rw [hfirst j hj x hx]
        simp)
    simp only [AdvancedGenerator.matchKnownEquationPattern]
    rw [hfind]
  · intro desc hnone
    have hfind : EquationGenerator.patterns.find?
        (fun p => p.keys.any (fun k => listContains (lowerStr desc) k)) = none := by
      rw [List.find?_eq_none]
      intro p hp
      rw [Bool.not_eq_true, List.any_eq_false]
      intro x hx
      rw [hnone p hp x hx]
      simp
    simp only [EquationGenerator.matchKnownEquationPattern]
    rw [hfind]
    rfl

/-- C1 witness: `c1_pattern_table` applied to `QUADRATIC FORMULA please`
(pattern index 0, no earlier pattern) and to `hello world` (no trigger
contained, compact matcher returns `null`). -/
theorem c1_pattern_table_witness :
    EquationGenerator.matchKnownEquationPattern
        (str "" ++ str "QUADRATIC FORMULA" ++ str " please")
      = some (EquationGenerator.canonicalResult
          (EquationGenerator.patterns.get ⟨0, by decide⟩))
    ∧ EquationGenerator.matchKnownEquationPattern (str "hello world") = none :=
  ⟨(c1_pattern_table (str "") (str "QUADRATIC FORMULA") (str " please")).1 0 (by decide)
      (str "quadratic formula") (by decide) (by decide)
      (fun j hj => absurd hj (Nat.not_lt_zero j)),
    (c1_pattern_table [] [] []).2.2 (str "hello world") (by decide)⟩

/-- C1 counterexample: the description `derivative of f(x) = x^2` contains
no trigger phrase of any pattern in the advanced implementation's table,
yet its pattern matcher does not return `null` (the derivative special case
answers). -/
theorem c1_counterexample :
    (AdvancedGenerator.equationPatterns.all (fun p =>
        p.patterns.all (fun t =>
          !(listContains (lowerStr (str "derivative of f(x) = x^2")) t))) = true)
    ∧ AdvancedGenerator.matchKnownEquationPattern (str "derivative of f(x) = x^2") ≠ none := by
  constructor
  · decide
  · decide

/-! ### The derivative/integration special cases of the advanced matcher -/

namespace AdvancedGenerator

theorem lazyDotPlus_all (rest : Str) :
    rest ≠ [] → (∀ c ∈ rest, isLineTerm c = false) → ¬ (wrtMarker <:+: rest) →
    lazyDotPlus rest = some rest := by
  induction rest with
  | nil => intro h; exact absurd rfl h
  | cons c t ih =>
    intro _ hlt hinf
    have hc : isLineTerm c = false := hlt c (List.mem_cons_self c t)
    have hpre : wrtMarker.isPrefixOf t = false := by
      cases hb : wrtMarker.isPrefixOf t
      · rfl
      · exact absurd (List.infix_cons ((List.isPrefixOf_iff_prefix.mp hb).isInfix)) hinf
    cases t with
    | nil => simp [lazyDotPlus, hc]
    | cons d u =>
      have htail := ih (by simp) (fun x hx => hlt x (List.mem_cons_of_mem c hx))
        (fun hx => hinf (List.infix_cons hx))
      rw [lazyDotPlus, if_neg (by simp [hc]), if_neg (by simp [hpre]), htail]
      rfl

theorem execSpecial_here (m1 m2 s cap : Str) (hs : s ≠ [])
    (hm : matchSpecialAt m1 m2 s = some cap) :
    execSpecial m1 m2 s = some cap := by
  cases s with
  | nil => exact absurd rfl hs
  | cons c t =>
    rw [execSpecial, hm]

theorem find?_patterns_eq_none {desc : Str}
    (hpat : ∀ p ∈ equationPatterns, ∀ t ∈ p.patterns,
      listContains (lowerStr desc) t = false) :
    equationPatterns.find?
      (fun p => p.patterns.any (fun t => listContains (lowerStr desc) t)) = none := by
  rw [List.find?_eq_none]
  intro p hp
  rw [Bool.not_eq_true, List.any_eq_false]
  intro x hx
  rw [hpat p hp x hx]
  simp

theorem match_deriv_case (desc cap : Str)
    (hfind : equationPatterns.find?
      (fun p => p.patterns.any (fun t => listContains (lowerStr desc) t)) = none)
    (hder : listContains (lowerStr desc) (str "derivative") = true)
    (hexec : execDeriv (lowerStr desc) = some cap) :
    matchKnownEquationPattern desc = some (handleDerivative cap) := by
  simp only [matchKnownEquationPattern]
  rw [hfind, hder]
  simp only [Bool.true_or, if_true]
  rw [hexec]

theorem match_int_case (desc cap : Str)
    (hfind : equationPatterns.find?
      (fun p => p.patterns.any (fun t => listContains (lowerStr desc) t)) = none)
    (hd1 : listContains (lowerStr desc) (str "derivative") = false)
    (hd2 : listContains (lowerStr desc) (str "differentiate") = false)
    (hint : listContains (lowerStr desc) (str "integral") = true)
    (hexec : execInt (lowerStr desc) = some cap) :
    matchKnownEquationPattern desc = some (handleIntegration cap) := by
  simp only [matchKnownEquationPattern]
  rw [hfind, hd1, hd2, hint]
  simp only [Bool.false_or, Bool.or_false, Bool.true_or, if_true, if_false]
  rw [hexec]
  simp

end AdvancedGenerator

/-- C9: the advanced pattern matcher answers some descriptions that contain
no trigger phrase of any table pattern: a description of the form
`derivative of f(x) = <expr>` (or `integral of f(x) = <expr>`) is handled
by the built-in differentiation (integration) special case, so the
external-collaborator fallback is not reached for such inputs; in
particular on `derivative of f(x) = x^2` the matcher returns latex `2x`. -/
theorem c9_special_cases :
    (∀ expr : Str,
      lowerStr expr ≠ [] →
      (∀ c ∈ lowerStr expr, AdvancedGenerator.isLineTerm c = false) →
      listContains (lowerStr expr) AdvancedGenerator.wrtMarker = false →
      (∀ p ∈ AdvancedGenerator.equationPatterns, ∀ t ∈ p.patterns,
        listContains (lowerStr (str "derivative of f(x) = " ++ expr)) t = false) →
      AdvancedGenerator.matchKnownEquationPattern (str "derivative of f(x) = " ++ expr)
        = some (AdvancedGenerator.handleDerivative (str "f(x) = " ++ lowerStr expr)))
    ∧ (∀ expr : Str,
      lowerStr expr ≠ [] →
      (∀ c ∈ lowerStr expr, AdvancedGenerator.isLineTerm c = false) →
      listContains (lowerStr expr) AdvancedGenerator.wrtMarker = false →
      (∀ p ∈ AdvancedGenerator.equationPatterns, ∀ t ∈ p.patterns,
        listContains (lowerStr (str "integral of f(x) = " ++ expr)) t = false) →
      listContains (lowerStr (str "integral of f(x) = " ++ expr)) (str "derivative") = false →
      listContains (lowerStr (str "integral of f(x) = " ++ expr)) (str "differentiate") = false →
      AdvancedGenerator.matchKnownEquationPattern (str "integral of f(x) = " ++ expr)
        = some (AdvancedGenerator.handleIntegration (str "f(x) = " ++ lowerStr expr)))
    ∧ AdvancedGenerator.matchKnownEquationPattern (str "derivative of f(x) = x^2")
        = some ⟨str "2x", str "Preview: 2x", none,
            some (str "Using the power rule: d/dx(x^n) = n·x^(n-1)")⟩ := by
  refine ⟨?_, ?_, by decide⟩
  · intro expr hne hlt hwrt hpat
    have hlow : lowerStr (str "derivative of f(x) = " ++ expr)
        = str "derivative of f(x) = " ++ lowerStr expr := by
      rw [lowerStr_append]
      congr 1
    apply AdvancedGenerator.match_deriv_case
    · exact AdvancedGenerator.find?_patterns_eq_none hpat
    · apply listContains_of_contained
      rw [hlow]
      refine ⟨[], str " of f(x) = " ++ lowerStr expr, ?_⟩
      rw [List.nil_append, ← List.append_assoc]
      congr 1
    · rw [hlow]
      unfold AdvancedGenerator.execDeriv
      apply AdvancedGenerator.execSpecial_here _ _ _ _ (by simp [str])
      have hp : (str "derivative of f(x) = ").isPrefixOf
          (str "derivative of f(x) = " ++ lowerStr expr) = true := by
        rw [List.isPrefixOf_iff_prefix]
        exact List.prefix_append _ _
      simp only [AdvancedGenerator.matchSpecialAt, hp, if_true]
      rw [List.drop_left]
      rw [AdvancedGenerator.lazyDotPlus_all (lowerStr expr) hne hlt
        (not_infix_of_listContains_eq_false hwrt)]
      rfl
  · intro expr hne hlt hwrt hpat hd1 hd2
    have hlow : lowerStr (str "integral of f(x) = " ++ expr)
        = str "integral of f(x) = " ++ lowerStr expr := by
      rw [lowerStr_append]
      congr 1
    apply AdvancedGenerator.match_int_case
    · exact AdvancedGenerator.find?_patterns_eq_none hpat
    · exact hd1
    · exact hd2
    · apply listContains_of_contained
      rw [hlow]
      refine ⟨[], str " of f(x) = " ++ lowerStr expr, ?_⟩
      rw [List.nil_append, ← List.append_assoc]
      congr 1
    · rw [hlow]
      unfold AdvancedGenerator.execInt
      apply AdvancedGenerator.execSpecial_here _ _ _ _ (by simp [str])
      have hp : (str "integral of f(x) = ").isPrefixOf
          (str "integral of f(x) = " ++ lowerStr expr) = true := by
        rw [List.isPrefixOf_iff_prefix]
        exact List.prefix_append _ _
      simp only [AdvancedGenerator.matchSpecialAt, hp, if_true]
      rw [List.drop_left]
      rw [AdvancedGenerator.lazyDotPlus_all (lowerStr expr) hne hlt
        (not_infix_of_listContains_eq_false hwrt)]
      rfl

/-- C9 witness: `c9_special_cases` applied to the expressions `x^3`
(derivative) and `x^2` (integral). -/
theorem c9_special_cases_witness :
    AdvancedGenerator.matchKnownEquationPattern (str "derivative of f(x) = " ++ str "x^3")
      = some (AdvancedGenerator.handleDerivative (str "f(x) = " ++ lowerStr (str "x^3")))
    ∧ AdvancedGenerator.matchKnownEquationPattern (str "integral of f(x) = " ++ str "x^2")
      = some (AdvancedGenerator.handleIntegration (str "f(x) = " ++ lowerStr (str "x^2"))) :=
  ⟨c9_special_cases.1 (str "x^3") (by decide) (by decide) (by decide) (by decide),
    c9_special_cases.2.1 (str "x^2") (by decide) (by decide) (by decide) (by decide)
      (by decide) (by decide)⟩

/-! ### The suggestion engine: length, sortedness, stable tie-breaking -/

namespace MathSymbolsLibrary

set_option maxRecDepth 10000 in
theorem registry_nodup : VALID_MATH_COMMANDS.Nodup := by decide

theorem gen_pairs_snd (reg : List Str) (d : Str → Nat) :
    ∀ p ∈ reg.map (fun c => (c, d c)), p.2 = d p.1 := by
  intro p hp
  rcases List.mem_map.mp hp with ⟨c, _, rfl⟩
  rfl

theorem gen_pairs_fst_mem (reg : List Str) (d : Str → Nat) :
    ∀ p ∈ reg.map (fun c => (c, d c)), p.1 ∈ reg := by
  intro p hp
  rcases List.mem_map.mp hp with ⟨c, hc, rfl⟩
  exact hc

theorem gen_pairs_nodup (reg : List Str) (hreg : reg.Nodup) (d : Str → Nat) :
    (reg.map (fun c => (c, d c))).Nodup :=
  List.Nodup.map (fun _ _ h => congrArg Prod.fst h) hreg

theorem gen_sorted_pairs_nodup (reg : List Str) (hreg : reg.Nodup) (d : Str → Nat) :
    ((reg.map (fun c => (c, d c))).insertionSort keyLe).Nodup :=
  ((List.perm_insertionSort keyLe _).nodup_iff).mpr (gen_pairs_nodup reg hreg d)

theorem gen_mem_sorted_pairs (reg : List Str) (d : Str → Nat) :
    ∀ p ∈ (reg.map (fun c => (c, d c))).insertionSort keyLe,
      p ∈ reg.map (fun c => (c, d c)) :=
  fun _ hp => (List.perm_insertionSort keyLe _).subset hp

theorem beq_instances_agree (a b : Str) :
    (@BEq.beq Str List.instBEq a b) = (@BEq.beq Str instBEqOfDecidableEq a b) := by
  by_cases h : a = b
  · subst h
    simp
  · have h1 : (@BEq.beq Str List.instBEq a b) = false := beq_eq_false_iff_ne.mpr h
    have h2 : (@BEq.beq Str instBEqOfDecidableEq a b) = false := by
      simp only [instBEqOfDecidableEq]
      simpa using h
    rw [h1, h2]

theorem indexOf_instances_agree (a : Str) (l : List Str) :
    @List.indexOf Str List.instBEq a l = @List.indexOf Str instBEqOfDecidableEq a l := by
  unfold List.indexOf
  congr 1
  funext x
  exact beq_instances_agree x a

theorem indexOf_lt_length_of_mem {a : Str} {l : List Str} (h : a ∈ l) :
    l.indexOf a < l.length := by
  rw [indexOf_instances_agree]
  exact List.indexOf_lt_length.mpr h

theorem get_indexOf_self {a : Str} {l : List Str} (h : l.indexOf a < l.length) :
    l.get ⟨l.indexOf a, h⟩ = a := by
  have h2 : @List.indexOf Str instBEqOfDecidableEq a l < l.length := by
    rw [← indexOf_instances_agree]
    exact h
  have hg := List.indexOf_get (h := h2)
  convert hg using 2
  exact Fin.ext (indexOf_instances_agree a l)

theorem indexOf_inj_of_mem {l : List Str} {x y : Str} (hx : x ∈ l) (hy : y ∈ l)
    (h : l.indexOf x = l.indexOf y) : x = y := by
  rw [indexOf_instances_agree, indexOf_instances_agree] at h
  exact (List.indexOf_inj hx hy).mp h

theorem gen_suggestion_ranking (reg : List Str) (hreg : reg.Nodup) (d : Str → Nat) :
    ((((reg.map (fun c => (c, d c))).insertionSort keyLe).take 5).map (fun p => p.1)).length
        = min 5 reg.length
    ∧ ((((reg.map (fun c => (c, d c))).insertionSort keyLe).take 5).map
        (fun p => p.1)).Pairwise (fun x y => d x ≤ d y)
    ∧ ∀ (i j : Nat)
        (hi : i < ((((reg.map (fun c => (c, d c))).insertionSort keyLe).take 5).map
          (fun p => p.1)).length)
        (hj : j < ((((reg.map (fun c => (c, d c))).insertionSort keyLe).take 5).map
          (fun p => p.1)).length),
        i < j →
        d (((((reg.map (fun c => (c, d c))).insertionSort keyLe).take 5).map
          (fun p => p.1)).get ⟨i, hi⟩)
          = d (((((reg.map (fun c => (c, d c))).insertionSort keyLe).take 5).map
            (fun p => p.1)).get ⟨j, hj⟩) →
        reg.indexOf (((((reg.map (fun c => (c, d c))).insertionSort keyLe).take 5).map
          (fun p => p.1)).get ⟨i, hi⟩)
          < reg.indexOf (((((reg.map (fun c => (c, d c))).insertionSort keyLe).take 5).map
            (fun p => p.1)).get ⟨j, hj⟩) := by
  have hsorted : List.Sorted keyLe ((reg.map (fun c => (c, d c))).insertionSort keyLe) :=
    List.sorted_insertionSort keyLe _
  have htake5 : List.Sublist (((reg.map (fun c => (c, d c))).insertionSort keyLe).take 5)
      ((reg.map (fun c => (c, d c))).insertionSort keyLe) :=
    List.take_sublist 5 _
  have hmem5 : ∀ p ∈ ((reg.map (fun c => (c, d c))).insertionSort keyLe).take 5,
      p.2 = d p.1 ∧ p.1 ∈ reg := by
    intro p hp
    have hp' := gen_mem_sorted_pairs reg d p (htake5.subset hp)
    exact ⟨gen_pairs_snd reg d p hp', gen_pairs_fst_mem reg d p hp'⟩
  refine ⟨?_, ?_, ?_⟩
  · rw [List.length_map, List.length_take, List.length_insertionSort, List.length_map]
  · rw [List.pairwise_map]
    refine List.Pairwise.imp_of_mem ?_ (List.Pairwise.sublist htake5 hsorted)
    intro a b ha hb hab
    have h2a := (hmem5 a ha).1
    have h2b := (hmem5 b hb).1
    rw [← h2a, ← h2b]
    exact hab
  · intro i j hi hj hij htie
    have hi' : i < (((reg.map (fun c => (c, d c))).insertionSort keyLe).take 5).length := by
      rw [List.length_map] at hi
      exact hi
    have hj' : j < (((reg.map (fun c => (c, d c))).insertionSort keyLe).take 5).length := by
      rw [List.length_map] at hj
      exact hj
    have hgeti : ((((reg.map (fun c => (c, d c))).insertionSort keyLe).take 5).map
        (fun p => p.1)).get ⟨i, hi⟩
        = ((((reg.map (fun c => (c, d c))).insertionSort keyLe).take 5).get ⟨i, hi'⟩).1 := by
      rw [List.get_eq_getElem, List.get_eq_getElem, List.getElem_map]
    have hgetj : ((((reg.map (fun c => (c, d c))).insertionSort keyLe).take 5).map
        (fun p => p.1)).get ⟨j, hj⟩
        = ((((reg.map (fun c => (c, d c))).insertionSort keyLe).take 5).get ⟨j, hj'⟩).1 := by
      rw [List.get_eq_getElem, List.get_eq_getElem, List.getElem_map]
    rw [hgeti, hgetj] at htie ⊢
    set t5 := (((reg.map (fun c => (c, d c))).insertionSort keyLe).take 5) with ht5
    set p := t5.get ⟨i, hi'⟩ with hp
    set q := t5.get ⟨j, hj'⟩ with hq
    have hpmem : p ∈ t5 := List.get_mem _ _ _
    have hqmem : q ∈ t5 := List.get_mem _ _ _
    have hp2 : p.2 = d p.1 := (hmem5 p hpmem).1
    have hq2 : q.2 = d q.1 := (hmem5 q hqmem).1
    have hsnd : p.2 = q.2 := by rw [hp2, hq2, htie]
    have hnodup5 : t5.Nodup := List.Nodup.sublist htake5 (gen_sorted_pairs_nodup reg hreg d)
    have hpq : p ≠ q := by
      intro he
      have h2 := (List.Nodup.get_inj_iff hnodup5 (i := ⟨i, hi'⟩) (j := ⟨j, hj'⟩)).mp he
      have : i = j := congrArg Fin.val h2
      omega
    have hpq1 : p.1 ≠ q.1 := fun he => hpq (Prod.ext he hsnd)
    have hsub5 : List.Sublist [p, q] ((reg.map (fun c => (c, d c))).insertionSort keyLe) :=
      List.Sublist.trans (pair_get_sublist t5 i j hij hj') htake5
    have hmemreg_p : p.1 ∈ reg := (hmem5 p hpmem).2
    have hmemreg_q : q.1 ∈ reg := (hmem5 q hqmem).2
    by_contra hcon
    rcases Nat.lt_or_ge (reg.indexOf q.1) (reg.indexOf p.1) with hlt | hge
    · have hiq : reg.indexOf p.1 < reg.length := indexOf_lt_length_of_mem hmemreg_p
      have hsubreg : List.Sublist
          [reg.get ⟨reg.indexOf q.1, Nat.lt_trans hlt hiq⟩, reg.get ⟨reg.indexOf p.1, hiq⟩]
          reg :=
        pair_get_sublist reg _ _ hlt hiq
      rw [get_indexOf_self, get_indexOf_self] at hsubreg
      have hsubpairs : List.Sublist [(q.1, d q.1), (p.1, d p.1)] (reg.map (fun c => (c, d c))) :=
        List.Sublist.map (fun c => (c, d c)) hsubreg
      have hqp : List.Sublist [q, p] (reg.map (fun c => (c, d c))) := by
        rw [show (q.1, d q.1) = q by rw [← hq2], show (p.1, d p.1) = p by rw [← hp2]]
          at hsubpairs
        exact hsubpairs
      have hqps : List.Sublist [q, p] ((reg.map (fun c => (c, d c))).insertionSort keyLe) :=
        List.pair_sublist_insertionSort (by rw [keyLe, hsnd]) hqp
      exact hpq (eq_of_pair_sublists (gen_sorted_pairs_nodup reg hreg d) hsub5 hqps)
    · rcases Nat.eq_or_lt_of_le hge with heq | hlt2
      · exact hpq1 (indexOf_inj_of_mem hmemreg_p hmemreg_q heq)
      · exact hcon hlt2

/-- C4: for every input string, `getSuggestions` returns exactly
`min 5 (registry size)` command names, in non-decreasing order of edit
distance from the input, with ties between equal-distance names broken by
the registry's insertion order. -/
theorem c4_suggestion_ranking (bad : Str) :
    (getSuggestions bad).length = min 5 VALID_MATH_COMMANDS.length
    ∧ (getSuggestions bad).Pairwise (fun x y => dist bad x ≤ dist bad y)
    ∧ ∀ (i j : Nat) (hi : i < (getSuggestions bad).length)
        (hj : j < (getSuggestions bad).length),
        i < j →
        dist bad ((getSuggestions bad).get ⟨i, hi⟩)
          = dist bad ((getSuggestions bad).get ⟨j, hj⟩) →
        VALID_MATH_COMMANDS.indexOf ((getSuggestions bad).get ⟨i, hi⟩)
          < VALID_MATH_COMMANDS.indexOf ((getSuggestions bad).get ⟨j, hj⟩) :=
  gen_suggestion_ranking VALID_MATH_COMMANDS registry_nodup (dist bad)

end MathSymbolsLibrary

set_option maxRecDepth 100000 in
/-- C4 witness: `c4_suggestion_ranking` at the input `ec`; the first two
suggestions (`sec` and `vec`) are at equal distance 1 and come out in
registry order. -/
theorem c4_suggestion_ranking_witness :
    (MathSymbolsLibrary.getSuggestions (str "ec")).length
        = min 5 MathSymbolsLibrary.VALID_MATH_COMMANDS.length
    ∧ MathSymbolsLibrary.VALID_MATH_COMMANDS.indexOf
        ((MathSymbolsLibrary.getSuggestions (str "ec")).get ⟨0, by decide⟩)
      < MathSymbolsLibrary.VALID_MATH_COMMANDS.indexOf
        ((MathSymbolsLibrary.getSuggestions (str "ec")).get ⟨1, by decide⟩) :=
  ⟨(MathSymbolsLibrary.c4_suggestion_ranking (str "ec")).1,
   (MathSymbolsLibrary.c4_suggestion_ranking (str "ec")).2.2 0 1 (by decide) (by decide)
     (by decide) (by decide)⟩
